import Mathlib

/-!
# Layouts and yields for revel: a shallow embedding of `app/controllers`

The development follows `src/app/controllers/yield.go` and
`src/app/controllers/results.go`.

* Go strings are byte sequences (`GoString`); slicing is by byte offset.
* Go maps are `GoMap`: either the nil map or a list of bindings in which the
  most recent binding of a key is the one that is read.
* A `revel.Template` handle is plain data (its name and source lines); what
  `Render` does with it is supplied by the template engine, a parameter
  (`Renderer`).  A `Render` call writes some bytes and then returns `nil`,
  returns an error, or panics.
* Effects on the response are recorded as a list of `Event`s in the order the
  code performs them.  Calls into the framework whose code is not part of
  this repository (`ErrorResult.Apply`, `PlaintextErrorResult.Apply`,
  `Controller.RenderTemplate`, `Controller.RenderError`) are recorded, not
  interpreted.  Lines written to `revel.ERROR` inside `Apply` are not recorded.
-/

namespace Yield

/-! ## Strings and maps -/

/-- A Go string: a sequence of bytes. -/
abbrev GoString := List UInt8

/-- The UTF-8 bytes of a literal. -/
def str (s : String) : GoString := s.data.flatMap String.utf8EncodeChar

deriving instance DecidableEq for Except

/-- Values a Go panic carries in this development. -/
inductive PanicValue where
  /-- Runtime error: assignment to entry in nil map. -/
  | nilMapAssign
  /-- Runtime error: method call on a nil interface value. -/
  | nilDeref
  /-- Runtime error: slice bounds out of range. -/
  | sliceBounds
  /-- A panic raised while a template executes, with its printed value. -/
  | raised (v : GoString)
deriving DecidableEq, Repr

/-- A Go map with string keys.  `nil` is the nil map: it reads as empty and
panics when written.  In `mk l` the first binding of a key in `l` is its value. -/
inductive GoMap (V : Type) where
  | nil
  | mk (l : List (GoString × V))
deriving DecidableEq, Repr

namespace GoMap

variable {V : Type}

/-- The Go read `v, found := m[k]`. -/
def get (m : GoMap V) (k : GoString) : Option V :=
  match m with
  | nil => none
  | mk l => l.lookup k

/-- The Go write `m[k] = v`. -/
def set (m : GoMap V) (k : GoString) (v : V) : Except PanicValue (GoMap V) :=
  match m with
  | nil => .error .nilMapAssign
  | mk l => .ok (mk ((k, v) :: l))

end GoMap

/-! ## Framework types (package `revel`) -/

namespace revel

/-- A template handle: `Name()` and `Content()`. -/
structure Template where
  name : GoString
  content : List GoString
deriving DecidableEq, Repr

/-- The fields of `revel.Error` that `renderError` fills. -/
structure Error where
  Title : GoString
  Path : GoString
  Description : GoString
  Line : Nat
  SourceLines : List GoString
deriving DecidableEq, Repr

/-- The fields of `revel.Request` that are read. -/
structure Request where
  Method : GoString
  Format : GoString
deriving DecidableEq, Repr

end revel

/-- A value stored in a render context (`interface{}`), by dynamic type. -/
inductive Value where
  /-- A `map[string]revel.Template`. -/
  | templates (m : GoMap revel.Template)
  /-- A value of any other dynamic type. -/
  | other (tag : Nat)
deriving DecidableEq, Repr

/-- A render context, `map[string]interface{}`. -/
abbrev RenderContext := GoMap Value

/-- An argument of the variadic `yield` helper (`interface{}`), by dynamic type. -/
inductive Arg where
  /-- A `map[string]interface{}`. -/
  | context (r : RenderContext)
  /-- A `string`. -/
  | string (s : GoString)
  /-- A value of any other dynamic type. -/
  | other (tag : Nat)
deriving DecidableEq, Repr

/-- How a call `t.Render(w, args)` ends. -/
inductive Outcome where
  /-- It returned `nil`. -/
  | ok
  /-- It returned an error with this message. -/
  | failed (msg : GoString)
  /-- It panicked. -/
  | panicked (p : PanicValue)
deriving DecidableEq, Repr

/-- What a call `t.Render(w, args)` did: the bytes it wrote to `w`, and how it ended. -/
structure Rendered where
  written : GoString
  outcome : Outcome
deriving DecidableEq, Repr

/-- The template engine: the behaviour of `Render` for each handle and context. -/
abbrev Renderer := revel.Template → RenderContext → Rendered

/-- A template index: `loader.Template(name)`, a handle or an error message. -/
abbrev TemplateLoader := GoString → Except GoString revel.Template

/-- The reserved key of the render context. -/
def ContentForItems : GoString := str "ContentForItems"

/-! ## The template helpers (`init` in yield.go) -/

/-- The helper `revel.TemplateFuncs["could_yield"]`. -/
def could_yield (name : GoString) (renderArgs : RenderContext) : Bool :=
  match renderArgs.get ContentForItems with
  | some items =>
    match items with
    | .templates renderTmpl =>
      match renderTmpl.get name with
      | some _ => true
      | none => false
    | _ => false
  | none => false

/-- What a call of `yield` does: it returns `(html, err)` or it panics. -/
inductive YieldResult where
  | ret (html : GoString) (err : Option GoString)
  | panicked (p : PanicValue)
deriving DecidableEq, Repr

/-- The second half of `yield` (yield.go lines 81-97), once `renderArgs` and
`target` are known. -/
def yieldLookup (render : Renderer) (target : GoString) (renderArgs : RenderContext) :
    YieldResult :=
  match renderArgs.get ContentForItems with
  | some items =>
    match items with
    | .templates renderTmpl =>
      match renderTmpl.get target with
      | some tmpl =>
        -- var b bytes.Buffer; err := tmpl.Render(&b, renderArgs)
        match (render tmpl renderArgs).outcome with
        | .failed msg => .ret [] (some msg)
        | .ok => .ret (render tmpl renderArgs).written none
        | .panicked p => .panicked p
      | none => .ret [] none
    | _ => .ret [] (some (str "Yield: ContentForItems was overwritten"))
  | none => .ret [] (some (str "Yield requires the base RenderArgs"))

/-- The helper `revel.TemplateFuncs["yield"]`. -/
def yield (render : Renderer) (args : List Arg) : YieldResult :=
  match args with
  | [a0] =>
    match a0 with
    | .context r_arg => yieldLookup render [] r_arg
    | _ => .ret [] (some (str "Must pass dot into yield"))
  | [a0, a1] =>
    match a0 with
    | .string t_arg =>
      match a1 with
      | .context r_arg => yieldLookup render t_arg r_arg
      | _ => .ret [] (some (str "Named yields require the dot as the second argument"))
    | _ => .ret [] (some (str "Named yields require the name as the first argument"))
  | _ => .ret [] (some (str "Yield: Argument Length Error"))

/-! ## Library functions used by `parseTemplateError` -/

/-- The byte `:`. -/
def colon : UInt8 := 58

/-- The class `\d` of the regular expression: an ASCII digit. -/
def isDigit (c : UInt8) : Bool := decide (48 ≤ c.toNat ∧ c.toNat ≤ 57)

/-- The number of digits at the head of `s`. -/
def digitRun : GoString → Nat
  | [] => 0
  | c :: cs => if isDigit c then digitRun cs + 1 else 0

/-- The length of the match of the pattern colon, one or more digits, colon
anchored at the head of `s`, if there is one.  The digits are matched
greedily and a digit is not a colon, so at most one match starts at a given
position. -/
def matchHere (s : GoString) : Option Nat :=
  match s with
  | [] => none
  | c :: rest =>
    if c = colon ∧ 0 < digitRun rest ∧ rest.get? (digitRun rest) = some colon then
      some (digitRun rest + 2)
    else none

/-- The leftmost match in `s`, whose first byte has offset `off` in the whole string. -/
def findFrom : GoString → Nat → Option (Nat × Nat)
  | [], _ => none
  | c :: cs, off =>
    match matchHere (c :: cs) with
    | some len => some (off, off + len)
    | none => findFrom cs (off + 1)

/-- The call `regexp.MustCompile(":\\d+:").FindStringIndex(s)`: the byte range
`(start, end)` of the leftmost match, `none` for Go's `nil`. -/
def FindStringIndex (s : GoString) : Option (Nat × Nat) := findFrom s 0

/-- The width of Go's `int` on the platform. -/
inductive IntSize where
  | w32
  | w64
deriving DecidableEq, Repr

/-- The largest `int`. -/
def IntSize.maxInt : IntSize → Nat
  | .w32 => 2 ^ 31 - 1
  | .w64 => 2 ^ 63 - 1

/-- The number a string of ASCII digits denotes in base ten. -/
def digitsValue (ds : GoString) : Nat :=
  ds.foldl (fun acc c => acc * 10 + (c.toNat - 48)) 0

/-- The call `strconv.Atoi(ds)` on a non-empty string of ASCII digits: the
value, or the largest `int` together with a range error when the value does
not fit.  The second component tells whether the error is non-nil. -/
def Atoi (w : IntSize) (ds : GoString) : Nat × Bool :=
  if digitsValue ds ≤ w.maxInt then (digitsValue ds, false) else (w.maxInt, true)

/-- The call `strconv.Itoa(n)` for a non-negative `n`. -/
def Itoa (n : Nat) : GoString := (Nat.toDigits 10 n).map (fun c => c.toNat.toUInt8)

/-- The UTF-8 encodings of the runes for which `unicode.IsSpace` holds:
tab, line feed, vertical tab, form feed, carriage return, space, U+0085,
U+00A0, U+1680, U+2000 to U+200A, U+2028, U+2029, U+202F, U+205F, U+3000. -/
def spaceEncodings : List GoString :=
  [[0x09], [0x0A], [0x0B], [0x0C], [0x0D], [0x20], [0xC2, 0x85], [0xC2, 0xA0],
   [0xE1, 0x9A, 0x80],
   [0xE2, 0x80, 0x80], [0xE2, 0x80, 0x81], [0xE2, 0x80, 0x82], [0xE2, 0x80, 0x83],
   [0xE2, 0x80, 0x84], [0xE2, 0x80, 0x85], [0xE2, 0x80, 0x86], [0xE2, 0x80, 0x87],
   [0xE2, 0x80, 0x88], [0xE2, 0x80, 0x89], [0xE2, 0x80, 0x8A],
   [0xE2, 0x80, 0xA8], [0xE2, 0x80, 0xA9], [0xE2, 0x80, 0xAF], [0xE2, 0x81, 0x9F],
   [0xE3, 0x80, 0x80]]

/-- The width of the white-space rune that `s` starts with, if it starts with one. -/
def leadingSpace (s : GoString) : Option Nat :=
  (spaceEncodings.find? (fun e => e.isPrefixOf s)).map List.length

/-- The width of the white-space rune that `s` ends with, if it ends with one. -/
def trailingSpace (s : GoString) : Option Nat :=
  (spaceEncodings.find? (fun e => e.isSuffixOf s)).map List.length

/-- Drops leading white-space runes, at most `fuel` of them. -/
def trimLeftAux : Nat → GoString → GoString
  | 0, s => s
  | fuel + 1, s =>
    match leadingSpace s with
    | some k => trimLeftAux fuel (s.drop k)
    | none => s

/-- Drops trailing white-space runes, at most `fuel` of them. -/
def trimRightAux : Nat → GoString → GoString
  | 0, s => s
  | fuel + 1, s =>
    match trailingSpace s with
    | some k => trimRightAux fuel (s.take (s.length - k))
    | none => s

/-- The call `strings.TrimSpace(s)`: all leading and trailing white space
removed.  Each step removes at least one byte, so `s.length` steps suffice. -/
def TrimSpace (s : GoString) : GoString :=
  trimRightAux s.length (trimLeftAux s.length s)

/-! ## `parseTemplateError` (results.go) -/

/-- The function `parseTemplateError` applied to an error whose message is
`description`.  `none` is the run-time panic of the slice expression
`description[i[1]+1:]` when `i[1]+1` exceeds the length of the message. -/
def parseTemplateError (w : IntSize) (description : GoString) :
    Except PanicValue (GoString × Nat × GoString) :=
  match FindStringIndex description with
  | some (i0, i1) =>
    let line := (Atoi w ((description.drop (i0 + 1)).take (i1 - 1 - (i0 + 1)))).1
    let templateName := description.take i0
    let templateName :=
      if colon ∈ templateName then templateName.drop (templateName.indexOf colon + 1)
      else templateName
    let templateName := TrimSpace templateName
    if i1 + 1 ≤ description.length then
      .ok (templateName, line, description.drop (i1 + 1))
    else .error .sliceBounds
  | none => .ok ([], 0, description)

/-! ## The framework as seen from this package -/

/-- What the code reads from the framework and the platform. -/
structure Env where
  /-- The setting `revel.Config.BoolDefault("results.chunked", false)`. -/
  chunked : Bool
  /-- The flag `revel.DevMode`. -/
  DevMode : Bool
  /-- The width of `int`. -/
  intSize : IntSize
  /-- The method `Render` of template handles. -/
  Render : Renderer
  /-- The index `revel.MainTemplateLoader`. -/
  MainTemplateLoader : TemplateLoader
  /-- The loader `revel.NewTemplateLoader` builds for the layout directory. -/
  NewTemplateLoader : TemplateLoader
  /-- The error `Refresh()` returns for that loader, if any. -/
  Refresh : Option GoString

/-- An effect on the response, or a call into the framework. -/
inductive Event where
  /-- The call `t.Render(w, args)`. -/
  | render (t : revel.Template) (args : RenderContext)
  /-- The call `resp.Out.Header().Set(key, value)`. -/
  | setHeader (key value : GoString)
  /-- The call `resp.WriteHeader(status, contentType)`. -/
  | writeHeader (status : Nat) (contentType : GoString)
  /-- These bytes were written to `resp.Out`. -/
  | write (bytes : GoString)
  /-- The assignment `resp.Status = status`. -/
  | setStatus (status : Nat)
  /-- The call `revel.ErrorResult{args, e}.Apply(req, resp)`. -/
  | errorResult (args : RenderContext) (e : revel.Error)
  /-- The call `revel.PlaintextErrorResult{err}.Apply(req, resp)`, where `err`
  is `fmt.Errorf("Template Execution Panic in %s:\n%s", templateName, p)`. -/
  | plaintextError (templateName : GoString) (p : PanicValue)
deriving DecidableEq, Repr

/-- The events of a piece of code, and the panic that ended it, if one did. -/
structure Flow where
  events : List Event
  panic : Option PanicValue
deriving DecidableEq, Repr

/-- The `io.Writer` a render writes to. -/
inductive Writer where
  /-- The response stream `resp.Out`. -/
  | respOut
  /-- The sink `ioutil.Discard`. -/
  | discard
  /-- A local `bytes.Buffer`. -/
  | buffer
deriving DecidableEq, Repr

/-- The events of writing `bytes` to `wr`: only the response stream is observed. -/
def writes (wr : Writer) (bytes : GoString) : List Event :=
  match wr with
  | .respOut => [.write bytes]
  | _ => []

/-! ## `RenderLayoutTemplateResult` (results.go) -/

/-- The struct `RenderLayoutTemplateResult`.  `Layout` may be nil. -/
structure RenderLayoutTemplateResult where
  Template : revel.Template
  Layout : Option revel.Template
  RenderArgs : RenderContext
  RenderTmpl : GoMap revel.Template
deriving DecidableEq, Repr

/-- The tail of `renderError` (results.go lines 110-119): build the
`revel.Error`, set the status and apply the error result. -/
def reportError (r : RenderLayoutTemplateResult) (templateName : GoString) (line : Nat)
    (description : GoString) (templateContent : List GoString) : Flow :=
  { events :=
      [.setStatus 500,
       .errorResult r.RenderArgs
         { Title := str "Layout Execution Error"
           Path := templateName
           Description := description
           Line := line
           SourceLines := templateContent }]
    panic := none }

/-- The method `renderError`, for an error whose message is `err`. -/
def RenderLayoutTemplateResult.renderError (env : Env) (r : RenderLayoutTemplateResult)
    (err : GoString) : Flow :=
  match parseTemplateError env.intSize err with
  | .error p => { events := [], panic := some p }
  | .ok (templateName, line, description) =>
    if templateName = [] then
      match r.Layout with
      | some layout => reportError r layout.name line description layout.content
      | none => { events := [], panic := some .nilDeref }
    else
      match env.MainTemplateLoader templateName with
      | .ok tmpl => reportError r templateName line description tmpl.content
      | .error _ => reportError r templateName line description []

/-- The common body of `render` and `renderWithLayout`:
`err := t.Render(wr, r.RenderArgs)`, then `renderError` unless `err == nil`.
Returns the bytes `wr` received and the flow. -/
def renderInto (env : Env) (r : RenderLayoutTemplateResult) (t : revel.Template)
    (wr : Writer) : GoString × Flow :=
  let res := env.Render t r.RenderArgs
  let evs := Event.render t r.RenderArgs :: writes wr res.written
  match res.outcome with
  | .ok => (res.written, { events := evs, panic := none })
  | .failed msg =>
    (res.written,
     { events := evs ++ (r.renderError env msg).events, panic := (r.renderError env msg).panic })
  | .panicked p => (res.written, { events := evs, panic := some p })

/-- The method `render`. -/
def RenderLayoutTemplateResult.render (env : Env) (r : RenderLayoutTemplateResult)
    (wr : Writer) : GoString × Flow :=
  renderInto env r r.Template wr

/-- The method `renderWithLayout`. -/
def RenderLayoutTemplateResult.renderWithLayout (env : Env) (r : RenderLayoutTemplateResult)
    (wr : Writer) : GoString × Flow :=
  match r.Layout with
  | some layout => renderInto env r layout wr
  | none => ([], { events := [], panic := some .nilDeref })

/-- The status `http.StatusOK`. -/
def StatusOK : Nat := 200

/-- The body of `Apply` below its `defer`: the result as the body left it, and the flow. -/
def applyBody (env : Env) (r : RenderLayoutTemplateResult) (req : revel.Request) :
    RenderLayoutTemplateResult × Flow :=
  -- r.RenderTmpl[""] = r.Template
  match r.RenderTmpl.set [] r.Template with
  | .error p => (r, { events := [], panic := some p })
  | .ok tm =>
    let r1 : RenderLayoutTemplateResult := { r with RenderTmpl := tm }
    -- r.RenderArgs["ContentForItems"] = r.RenderTmpl
    match r1.RenderArgs.set ContentForItems (.templates r1.RenderTmpl) with
    | .error p => (r1, { events := [], panic := some p })
    | .ok ra =>
      let r2 : RenderLayoutTemplateResult := { r1 with RenderArgs := ra }
      let out := if req.Method = str "HEAD" then Writer.discard else Writer.respOut
      if env.chunked && !env.DevMode then
        let f :=
          if r2.Layout = none then (r2.render env out).2 else (r2.renderWithLayout env out).2
        (r2, { events := Event.writeHeader StatusOK (str "text/html") :: f.events,
               panic := f.panic })
      else
        let bf :=
          if r2.Layout = none then r2.render env .buffer else r2.renderWithLayout env .buffer
        match bf.2.panic with
        | some p => (r2, { events := bf.2.events, panic := some p })
        | none =>
          (r2,
           { events :=
               bf.2.events
                 ++ (if !env.chunked then
                       [Event.setHeader (str "Content-Length") (Itoa bf.1.length)]
                     else [])
                 ++ [Event.writeHeader StatusOK (str "text/html")]
                 ++ writes out bf.1
             panic := none })

/-- The method `Apply`: the body, then the deferred handler, which turns a
panic into a plain-text error result.  Returns the result as `Apply` left it
and the events in order. -/
def RenderLayoutTemplateResult.Apply (env : Env) (r : RenderLayoutTemplateResult)
    (req : revel.Request) : RenderLayoutTemplateResult × List Event :=
  match (applyBody env r req).2.panic with
  | some p =>
    ((applyBody env r req).1,
     (applyBody env r req).2.events ++ [.plaintextError (applyBody env r req).1.Template.name p])
  | none => ((applyBody env r req).1, (applyBody env r req).2.events)

/-! ## `Controller` (yield.go) -/

/-- The package variables `DefaultLayout` and `layoutTemplates` (nil until loaded). -/
structure Globals where
  DefaultLayout : GoMap GoString
  layoutTemplates : Option TemplateLoader

/-- The struct `Controller`, with the fields of the embedded `*revel.Controller`
that the package reads: `Name`, `MethodType.Name`, `MethodType.RenderArgNames`
(call-site line to argument names), `Request.Format` and `RenderArgs`. -/
structure Controller where
  Name : GoString
  MethodName : GoString
  RenderArgNames : List (Nat × List GoString)
  Format : GoString
  RenderArgs : RenderContext
  RenderTmpl : GoMap revel.Template
  LayoutPath : GoString
  noLayout : Bool
deriving DecidableEq, Repr

/-- A `revel.Result` as returned by the controller methods. -/
inductive Result where
  /-- The framework call `lc.RenderTemplate(path)`: the plain render path. -/
  | RenderTemplate (path : GoString)
  /-- The framework call `lc.RenderError(err)`. -/
  | RenderError (err : GoString)
  /-- A `*RenderLayoutTemplateResult`: the layout-wrapped path. -/
  | layout (r : RenderLayoutTemplateResult)
deriving DecidableEq, Repr

/-- A line `Render` writes to `revel.ERROR`. -/
inductive LogLine where
  /-- Failed to get Caller information. -/
  | callerFailed
  /-- The count of names found differs from the count of extra arguments. -/
  | countMismatch (names args : Nat)
  /-- No RenderArg names found for the Render call on this line. -/
  | noNames (line : Nat) (method : GoString)
deriving DecidableEq, Repr

/-- The method `Layout`. -/
def Controller.Layout (lc : Controller) (s : GoString) : Controller :=
  if s = [] then { lc with noLayout := true } else { lc with LayoutPath := s }

/-- The function `loadLayouts`: assigns `layoutTemplates` and returns the
error of `Refresh()`. -/
def loadLayouts (env : Env) (g : Globals) : Globals × Option GoString :=
  ({ g with layoutTemplates := some env.NewTemplateLoader }, env.Refresh)

/-- The lookups of `RenderTemplateWithLayout` (yield.go lines 178-196), with
the loaded layout index `layouts`. -/
def resolveWithLayout (env : Env) (layouts : TemplateLoader) (lc : Controller)
    (templatePath : GoString) : Result :=
  match env.MainTemplateLoader templatePath with
  | .error err => .RenderError err
  | .ok template =>
    match layouts lc.LayoutPath with
    | .ok layout =>
      .layout { Template := template, Layout := some layout,
                RenderArgs := lc.RenderArgs, RenderTmpl := .mk [] }
    | .error _ =>
      match layouts (lc.LayoutPath ++ str "." ++ lc.Format) with
      | .ok layout =>
        .layout { Template := template, Layout := some layout,
                  RenderArgs := lc.RenderArgs, RenderTmpl := .mk [] }
      | .error err => .RenderError err

/-- The method `RenderTemplateWithLayout`. -/
def Controller.RenderTemplateWithLayout (env : Env) (g : Globals) (lc : Controller)
    (templatePath : GoString) : Globals × Result :=
  match g.layoutTemplates with
  | none =>
    match (loadLayouts env g).2 with
    | some err => ((loadLayouts env g).1, .RenderError err)
    | none => ((loadLayouts env g).1, resolveWithLayout env env.NewTemplateLoader lc templatePath)
  | some layouts => (g, resolveWithLayout env layouts lc templatePath)

/-- The loop `for i, extraRenderArg := range extraRenderArgs` of `Render`,
entered with as many names as arguments. -/
def assignArgs : RenderContext → List GoString → List Value → Except PanicValue RenderContext
  | ra, n :: ns, v :: vs =>
    match ra.set n v with
    | .ok ra1 => assignArgs ra1 ns vs
    | .error p => .error p
  | ra, _, _ => .ok ra

/-- What `Render` leaves behind. -/
structure RenderOut where
  lc : Controller
  globals : Globals
  result : Result
  log : List LogLine

/-- The template path `lc.Name + "/" + lc.MethodType.Name + "." + lc.Request.Format`. -/
def Controller.templatePath (lc : Controller) : GoString :=
  lc.Name ++ str "/" ++ lc.MethodName ++ str "." ++ lc.Format

/-- The choice of path at the end of `Render` (yield.go lines 154-161). -/
def Controller.dispatch (env : Env) (g : Globals) (lc : Controller) (log : List LogLine) :
    RenderOut :=
  if lc.noLayout || (g.DefaultLayout.get lc.Format).getD [] = [] then
    { lc := lc, globals := g, result := .RenderTemplate lc.templatePath, log := log }
  else
    let lc1 : Controller :=
      if lc.LayoutPath = [] then
        { lc with LayoutPath := (g.DefaultLayout.get lc.Format).getD [] }
      else lc
    { lc := lc1
      globals := (lc1.RenderTemplateWithLayout env g lc1.templatePath).1
      result := (lc1.RenderTemplateWithLayout env g lc1.templatePath).2
      log := log }

/-- The method `Render`.  `caller` is what `runtime.Caller(1)` reports: the
line of the call site, or `none` when it fails (the line is then 0).  The
method has no `recover`: a panic of the map write leaves it at once. -/
def Controller.Render (env : Env) (g : Globals) (lc : Controller) (caller : Option Nat)
    (extraRenderArgs : List Value) : Except PanicValue RenderOut :=
  let line := caller.getD 0
  let log0 := if caller = none then [LogLine.callerFailed] else []
  match lc.RenderArgNames.lookup line with
  | some renderArgNames =>
    if renderArgNames.length = extraRenderArgs.length then
      match assignArgs lc.RenderArgs renderArgNames extraRenderArgs with
      | .ok ra => .ok (Controller.dispatch env g { lc with RenderArgs := ra } log0)
      | .error p => .error p
    else
      .ok (Controller.dispatch env g lc
            (log0 ++ [.countMismatch renderArgNames.length extraRenderArgs.length]))
  | none => .ok (Controller.dispatch env g lc (log0 ++ [.noNames line lc.MethodName]))

/-- The method `ContentFor`: the controller afterwards and the returned error. -/
def Controller.ContentFor (env : Env) (lc : Controller) (yieldName templateName : GoString) :
    Except PanicValue (Controller × Option GoString) :=
  match env.MainTemplateLoader templateName with
  | .ok template =>
    match lc.RenderTmpl.set yieldName template with
    | .ok tm => .ok ({ lc with RenderTmpl := tm }, none)
    | .error p => .error p
  | .error _ =>
    match env.MainTemplateLoader (lc.Name ++ str "/" ++ templateName) with
    | .ok template =>
      match lc.RenderTmpl.set yieldName template with
      | .ok tm => .ok ({ lc with RenderTmpl := tm }, none)
      | .error p => .error p
    | .error err => .ok (lc, some err)

/-! ## Vocabulary of the statements -/

/-- The list `args` is a call `yield(ctx)`, whose target is the empty name,
or a call `yield(target, ctx)`. -/
def YieldCall (args : List Arg) (target : GoString) (ctx : RenderContext) : Prop :=
  (args = [.context ctx] ∧ target = []) ∨ args = [.string target, .context ctx]

/-- The cases in which `yield` is to return a non-nil error. -/
def YieldErrorCase (render : Renderer) (args : List Arg) : Prop :=
  (args.length ≠ 1 ∧ args.length ≠ 2) ∨
  (∃ a, args = [a] ∧ ∀ ctx, a ≠ .context ctx) ∨
  (∃ a b, args = [a, b] ∧ ((∀ s, a ≠ .string s) ∨ ∀ ctx, b ≠ .context ctx)) ∨
  (∃ target ctx, YieldCall args target ctx ∧
    ∀ m, ctx.get ContentForItems ≠ some (.templates m)) ∨
  (∃ target ctx m t msg, YieldCall args target ctx ∧
    ctx.get ContentForItems = some (.templates m) ∧ m.get target = some t ∧
    (render t ctx).outcome = .failed msg)

/-- The target template of the call `args` is registered and its `Render` panics with `p`. -/
def YieldTargetPanics (render : Renderer) (args : List Arg) (p : PanicValue) : Prop :=
  ∃ target ctx m t, YieldCall args target ctx ∧
    ctx.get ContentForItems = some (.templates m) ∧ m.get target = some t ∧
    (render t ctx).outcome = .panicked p

/-- The `Render` calls among the events, in order. -/
def renderCalls : List Event → List (revel.Template × RenderContext)
  | [] => []
  | .render t args :: es => (t, args) :: renderCalls es
  | _ :: es => renderCalls es

/-- The chunks of bytes the events put on the response stream, in order. -/
def writeCalls : List Event → List GoString
  | [] => []
  | .write bytes :: es => bytes :: writeCalls es
  | _ :: es => writeCalls es

/-- The template `Apply` renders: the layout when there is one, the main template otherwise. -/
def RenderLayoutTemplateResult.wrapped (r : RenderLayoutTemplateResult) : revel.Template :=
  match r.Layout with
  | some layout => layout
  | none => r.Template

/-- The render context after the two assignments at the head of `Apply`, for
a result whose maps hold the bindings `tmpl` and `args`. -/
def injected (main : revel.Template) (tmpl : List (GoString × revel.Template))
    (args : List (GoString × Value)) : RenderContext :=
  .mk ((ContentForItems, .templates (.mk (([], main) :: tmpl))) :: args)

/-- The result after the two assignments at the head of `Apply`, for a
result whose maps hold the bindings `tmpl` and `args`. -/
def RenderLayoutTemplateResult.prepared (r : RenderLayoutTemplateResult)
    (tmpl : List (GoString × revel.Template)) (args : List (GoString × Value)) :
    RenderLayoutTemplateResult :=
  { r with RenderTmpl := .mk (([], r.Template) :: tmpl)
           RenderArgs := injected r.Template tmpl args }

/-- The writer `out` of `Apply`. -/
def outWriter (req : revel.Request) : Writer :=
  if req.Method = str "HEAD" then .discard else .respOut

/-! ## Sample data -/

/-- A page template. -/
def pageTemplate : revel.Template :=
  { name := str "App/Index.html", content := [str "<h1>Index</h1>"] }

/-- A template for a side bar. -/
def sidebarTemplate : revel.Template :=
  { name := str "x.html", content := [str "<ul></ul>"] }

/-- A layout template. -/
def layoutTemplate : revel.Template :=
  { name := str "application.html", content := [str "<html></html>"] }

/-- An engine in which every template renders its own name. -/
def nameRender : Renderer := fun t _ => { written := t.name, outcome := .ok }

/-- An engine in which every `Render` panics. -/
def panicRender : Renderer :=
  fun _ _ => { written := [], outcome := .panicked (.raised (str "boom")) }

/-- An engine in which every `Render` writes three bytes and then returns an error. -/
def failRender : Renderer :=
  fun _ _ => { written := str "<p>", outcome := .failed (str "html/template:App/Index.html:1: boom") }

/-- The main template index of the samples. -/
def sampleLoader : TemplateLoader := fun name =>
  if name = str "App/Index.html" then .ok pageTemplate
  else if name = str "x.html" then .ok sidebarTemplate
  else .error (str "template not found")

/-- The layout index of the samples. -/
def sampleLayouts : TemplateLoader := fun name =>
  if name = str "application.html" then .ok layoutTemplate
  else .error (str "layout not found")

/-- A framework with the sample indexes, 64-bit `int`, and the given mode and engine. -/
def sampleEnv (chunked devMode : Bool) (render : Renderer) : Env :=
  { chunked := chunked
    DevMode := devMode
    intSize := .w64
    Render := render
    MainTemplateLoader := sampleLoader
    NewTemplateLoader := sampleLayouts
    Refresh := none }

/-- A GET request for HTML. -/
def getRequest : revel.Request := { Method := str "GET", Format := str "html" }

/-- A HEAD request for HTML. -/
def headRequest : revel.Request := { Method := str "HEAD", Format := str "html" }

/-- A result without a layout, with empty maps. -/
def plainResult : RenderLayoutTemplateResult :=
  { Template := pageTemplate, Layout := none, RenderArgs := .mk [], RenderTmpl := .mk [] }

/-- A result with a layout, as `RenderTemplateWithLayout` builds it. -/
def layoutResult : RenderLayoutTemplateResult :=
  { Template := pageTemplate, Layout := some layoutTemplate,
    RenderArgs := .mk [], RenderTmpl := .mk [] }

/-- The controller of the action `App.Index`, with its maps made. -/
def sampleController : Controller :=
  { Name := str "App"
    MethodName := str "Index"
    RenderArgNames := []
    Format := str "html"
    RenderArgs := .mk []
    RenderTmpl := .mk []
    LayoutPath := []
    noLayout := false }

/-- Package variables with a default layout for HTML, layouts not loaded yet. -/
def sampleGlobals : Globals :=
  { DefaultLayout := .mk [(str "html", str "application.html")], layoutTemplates := none }

/-- Package variables without any default layout. -/
def noDefaultGlobals : Globals :=
  { DefaultLayout := .mk [], layoutTemplates := none }

/-- The sample controller after `ContentFor("sidebar", "x.html")`. -/
def sidebarController : Controller :=
  { sampleController with RenderTmpl := .mk [(str "sidebar", sidebarTemplate)] }

/-- The render context `Apply` builds for `layoutResult`. -/
def layoutContext : RenderContext := injected pageTemplate [] []

/-- The message in the comment above `parseTemplateError`. -/
def registerMessage : GoString :=
  str "html/template:Application/Register.html:36: no such template \"footer.html\""

/-- A render context with a default body and a side bar. -/
def sampleContext : RenderContext :=
  .mk [(ContentForItems,
        .templates (.mk [([], pageTemplate), (str "sidebar", sidebarTemplate)])),
       (str "title", .other 7)]

/-- The sample controller as the framework makes it: the package's own map
`RenderTmpl` has its zero value, nil. -/
def zeroController : Controller :=
  { sampleController with RenderTmpl := .nil }

/-- The sample controller with the names `title` and `user` registered for
the `Render` call on line 12. -/
def argsController : Controller :=
  { sampleController with RenderArgNames := [(12, [str "title", str "user"])] }

/-- The layout index `RenderTemplateWithLayout` looks layouts up in: the one
already loaded, or the one `loadLayouts` makes. -/
def layoutIndex (env : Env) (g : Globals) : TemplateLoader :=
  match g.layoutTemplates with
  | some layouts => layouts
  | none => env.NewTemplateLoader

/-- The error of the layout load, when `RenderTemplateWithLayout` has to load
the layouts and the load fails. -/
def loadError (env : Env) (g : Globals) : Option GoString :=
  match g.layoutTemplates with
  | some _ => none
  | none => env.Refresh

/-- An engine in which every `Render` returns an error whose message names
no template and no line. -/
def boomRender : Renderer :=
  fun _ _ => { written := [], outcome := .failed (str "boom") }

/-- What is left of `s` after its first colon, if it has one. -/
def dropThroughColon : GoString → Option GoString
  | [] => none
  | c :: cs => if c = colon then some cs else dropThroughColon cs

/-- The text of `s` after its first colon, or all of `s` when it has no colon. -/
def afterFirstColon (s : GoString) : GoString := (dropThroughColon s).getD s

/-- The digits of a match with byte range `[a, b)`: the bytes between its two colons. -/
def matchDigits (msg : GoString) (a b : Nat) : GoString :=
  (msg.drop (a + 1)).take (b - 1 - (a + 1))

/-- The bytes `[a, b)` of `s` are a colon, one or more ASCII digits, and a colon. -/
def IsMatch (s : GoString) (a b : Nat) : Prop :=
  a + 3 ≤ b ∧ b ≤ s.length ∧ s[a]? = some colon ∧ s[b - 1]? = some colon ∧
    ∀ i, a < i → i < b - 1 → ∃ c, s[i]? = some c ∧ isDigit c = true

/-- The range `[a, b)` is the first match in `s`: no match starts before `a`. -/
def FirstMatch (s : GoString) (a b : Nat) : Prop :=
  IsMatch s a b ∧ ∀ a1 b1, IsMatch s a1 b1 → a ≤ a1

/-- A message whose line number does not fit in 64 bits. -/
def bigLineMessage : GoString := str "a:99999999999999999999: x"

/-! ## Theorems -/

theorem GoMap.get_set_same {V : Type} (l : List (GoString × V)) (k : GoString) (v : V) :
    (GoMap.mk ((k, v) :: l)).get k = some v := by
  simp [GoMap.get, List.lookup_cons]

theorem GoMap.get_set_ne {V : Type} (l : List (GoString × V)) (k k1 : GoString) (v : V)
    (h : k1 ≠ k) : (GoMap.mk ((k, v) :: l)).get k1 = (GoMap.mk l).get k1 := by
  have hb : (k1 == k) = false := by simp [h]
  simp [GoMap.get, List.lookup_cons, hb]

/-- The six ways the lookup half of `yield` can go. -/
theorem yieldLookup_cases (render : Renderer) (target : GoString) (ctx : RenderContext) :
    ((∀ m, ctx.get ContentForItems ≠ some (.templates m)) ∧
      ∃ err, yieldLookup render target ctx = .ret [] (some err)) ∨
    (∃ m, ctx.get ContentForItems = some (.templates m) ∧ m.get target = none ∧
      yieldLookup render target ctx = .ret [] none) ∨
    (∃ m t, ctx.get ContentForItems = some (.templates m) ∧ m.get target = some t ∧
      (render t ctx).outcome = .ok ∧
      yieldLookup render target ctx = .ret (render t ctx).written none) ∨
    (∃ m t msg, ctx.get ContentForItems = some (.templates m) ∧ m.get target = some t ∧
      (render t ctx).outcome = .failed msg ∧
      yieldLookup render target ctx = .ret [] (some msg)) ∨
    (∃ m t p, ctx.get ContentForItems = some (.templates m) ∧ m.get target = some t ∧
      (render t ctx).outcome = .panicked p ∧
      yieldLookup render target ctx = .panicked p) := by
  unfold yieldLookup
  cases hc : ctx.get ContentForItems with
  | none => left; simp
  | some items =>
    cases items with
    | other tag => left; simp
    | templates m =>
      right
      cases ht : m.get target with
      | none => left; exact ⟨m, rfl, ht, by simp [ht]⟩
      | some t =>
        right
        cases ho : (render t ctx).outcome with
        | ok => left; exact ⟨m, t, rfl, ht, ho, by simp [ht, ho]⟩
        | failed msg => right; left; exact ⟨m, t, msg, rfl, ht, ho, by simp [ht, ho]⟩
        | panicked p => right; right; exact ⟨m, t, p, rfl, ht, ho, by simp [ht, ho]⟩

/-- A well-formed call determines its target and its context. -/
theorem YieldCall.unique {args : List Arg} {t1 t2 : GoString} {c1 c2 : RenderContext}
    (h1 : YieldCall args t1 c1) (h2 : YieldCall args t2 c2) : t1 = t2 ∧ c1 = c2 := by
  rcases h1 with ⟨rfl, rfl⟩ | rfl <;> rcases h2 with ⟨h, rfl⟩ | h <;> simp_all

/-- The first half of `yield`: either the arguments form a call and the
lookup half runs, or an argument error is returned. -/
theorem yield_shape (render : Renderer) (args : List Arg) :
    (∃ target ctx, YieldCall args target ctx ∧
      yield render args = yieldLookup render target ctx) ∨
    ((∀ target ctx, ¬ YieldCall args target ctx) ∧
      (∃ err, yield render args = .ret [] (some err)) ∧
      ((args.length ≠ 1 ∧ args.length ≠ 2) ∨
       (∃ a, args = [a] ∧ ∀ ctx, a ≠ .context ctx) ∨
       (∃ a b, args = [a, b] ∧ ((∀ s, a ≠ .string s) ∨ ∀ ctx, b ≠ .context ctx)))) := by
  match args with
  | [] => right; simp [yield, YieldCall]
  | [a] =>
    cases a with
    | context r => left; exact ⟨[], r, Or.inl ⟨rfl, rfl⟩, rfl⟩
    | string s => right; simp [yield, YieldCall]
    | other tag => right; simp [yield, YieldCall]
  | [a, b] =>
    cases a with
    | context r =>
      right
      exact ⟨by simp [YieldCall], ⟨_, rfl⟩,
        Or.inr (Or.inr ⟨_, _, rfl, Or.inl (by simp)⟩)⟩
    | other tag =>
      right
      exact ⟨by simp [YieldCall], ⟨_, rfl⟩,
        Or.inr (Or.inr ⟨_, _, rfl, Or.inl (by simp)⟩)⟩
    | string s =>
      cases b with
      | context r => left; exact ⟨s, r, Or.inr rfl, rfl⟩
      | string s2 =>
        right
        exact ⟨by simp [YieldCall], ⟨_, rfl⟩,
          Or.inr (Or.inr ⟨_, _, rfl, Or.inr (by simp)⟩)⟩
      | other tag =>
        right
        exact ⟨by simp [YieldCall], ⟨_, rfl⟩,
          Or.inr (Or.inr ⟨_, _, rfl, Or.inr (by simp)⟩)⟩
  | _ :: _ :: _ :: _ => right; simp [yield, YieldCall]

/-- C5 (as amended). For every template engine and argument list: `yield`
panics exactly when the registered target template's own `Render` panics (it
has no `recover`); it returns a non-nil error exactly in the listed cases
(wrong argument count, wrong argument types, `ContentForItems` missing or not
a template map, or the target's `Render` returning an error); the markup is
empty in every error case; a context without `ContentForItems` gives empty
markup with an error; a `ContentForItems` lacking the target gives empty
markup and no error. -/
theorem yield_error_cases (render : Renderer) (args : List Arg) :
    (∀ p, yield render args = .panicked p ↔ YieldTargetPanics render args p) ∧
    ((∃ html err, yield render args = .ret html (some err)) ↔ YieldErrorCase render args) ∧
    (∀ html err, yield render args = .ret html (some err) → html = []) ∧
    (∀ target ctx, YieldCall args target ctx → ctx.get ContentForItems = none →
      ∃ err, yield render args = .ret [] (some err)) ∧
    (∀ target ctx m, YieldCall args target ctx →
      ctx.get ContentForItems = some (.templates m) → m.get target = none →
      yield render args = .ret [] none) := by
  rcases yield_shape render args with ⟨target, ctx, hcall, hy⟩ | ⟨hno, ⟨err, hy⟩, hshape⟩
  · -- the arguments form a call
    have hlen : ¬ (args.length ≠ 1 ∧ args.length ≠ 2) := by
      rcases hcall with ⟨rfl, _⟩ | rfl <;> simp
    have hone : ¬ ∃ a, args = [a] ∧ ∀ c, a ≠ Arg.context c := by
      rintro ⟨a, ha, hne⟩
      rcases hcall with ⟨rfl, _⟩ | rfl
      · simp at ha; exact hne ctx ha.symm
      · simp at ha
    have htwo : ¬ ∃ a b, args = [a, b] ∧
        ((∀ s, a ≠ Arg.string s) ∨ ∀ c, b ≠ Arg.context c) := by
      rintro ⟨a, b, hab, hne⟩
      rcases hcall with ⟨rfl, _⟩ | rfl
      · simp at hab
      · simp at hab
        rcases hne with h | h
        · exact h target hab.1.symm
        · exact h ctx hab.2.symm
    rw [hy]
    rcases yieldLookup_cases render target ctx with
      ⟨hmiss, e, he⟩ | ⟨m, hm, ht, he⟩ | ⟨m, t, hm, ht, ho, he⟩ |
      ⟨m, t, msg, hm, ht, ho, he⟩ | ⟨m, t, p, hm, ht, ho, he⟩
    · -- no template map in the context
      rw [he]
      refine ⟨?_, ?_, ?_, ?_, ?_⟩
      · intro p
        constructor
        · intro h; cases h
        · rintro ⟨t2, c2, m, t, hc2, hm, _, _⟩
          obtain ⟨_, rfl⟩ := YieldCall.unique hcall hc2
          exact absurd hm (hmiss m)
      · constructor
        · intro _
          exact Or.inr (Or.inr (Or.inr (Or.inl ⟨target, ctx, hcall, hmiss⟩)))
        · intro _; exact ⟨[], e, rfl⟩
      · intro html err h; cases h; rfl
      · intro t2 c2 _ _; exact ⟨e, rfl⟩
      · intro t2 c2 m hc2 hm _
        obtain ⟨_, rfl⟩ := YieldCall.unique hcall hc2
        exact absurd hm (hmiss m)
    · -- the target is not registered
      rw [he]
      refine ⟨?_, ?_, ?_, ?_, ?_⟩
      · intro p
        constructor
        · intro h; cases h
        · rintro ⟨t2, c2, m2, t, hc2, hm2, ht2, _⟩
          obtain ⟨rfl, rfl⟩ := YieldCall.unique hcall hc2
          rw [hm] at hm2; cases hm2
          rw [ht] at ht2; cases ht2
      · constructor
        · rintro ⟨html, err, h⟩; cases h
        · rintro (h | h | h | ⟨t2, c2, hc2, hmiss⟩ | ⟨t2, c2, m2, t, msg, hc2, hm2, ht2, _⟩)
          · exact absurd h hlen
          · exact absurd h hone
          · exact absurd h htwo
          · obtain ⟨_, rfl⟩ := YieldCall.unique hcall hc2
            exact absurd hm (hmiss m)
          · obtain ⟨rfl, rfl⟩ := YieldCall.unique hcall hc2
            rw [hm] at hm2; cases hm2
            rw [ht] at ht2; cases ht2
      · intro html err h; cases h
      · intro t2 c2 hc2 hnone
        obtain ⟨_, rfl⟩ := YieldCall.unique hcall hc2
        rw [hm] at hnone; cases hnone
      · intro _ _ _ _ _ _; rfl
    · -- the target renders
      rw [he]
      refine ⟨?_, ?_, ?_, ?_, ?_⟩
      · intro p
        constructor
        · intro h; cases h
        · rintro ⟨t2, c2, m2, t3, hc2, hm2, ht2, ho2⟩
          obtain ⟨rfl, rfl⟩ := YieldCall.unique hcall hc2
          rw [hm] at hm2; cases hm2
          rw [ht] at ht2; cases ht2
          rw [ho] at ho2; cases ho2
      · constructor
        · rintro ⟨html, err, h⟩; cases h
        · rintro (h | h | h | ⟨t2, c2, hc2, hmiss⟩ | ⟨t2, c2, m2, t3, msg, hc2, hm2, ht2, ho2⟩)
          · exact absurd h hlen
          · exact absurd h hone
          · exact absurd h htwo
          · obtain ⟨_, rfl⟩ := YieldCall.unique hcall hc2
            exact absurd hm (hmiss m)
          · obtain ⟨rfl, rfl⟩ := YieldCall.unique hcall hc2
            rw [hm] at hm2; cases hm2
            rw [ht] at ht2; cases ht2
            rw [ho] at ho2; cases ho2
      · intro html err h; cases h
      · intro t2 c2 hc2 hnone
        obtain ⟨_, rfl⟩ := YieldCall.unique hcall hc2
        rw [hm] at hnone; cases hnone
      · intro t2 c2 m2 hc2 hm2 ht2
        obtain ⟨rfl, rfl⟩ := YieldCall.unique hcall hc2
        rw [hm] at hm2; cases hm2
        rw [ht] at ht2; cases ht2
    · -- the target's render returns an error
      rw [he]
      refine ⟨?_, ?_, ?_, ?_, ?_⟩
      · intro p
        constructor
        · intro h; cases h
        · rintro ⟨t2, c2, m2, t3, hc2, hm2, ht2, ho2⟩
          obtain ⟨rfl, rfl⟩ := YieldCall.unique hcall hc2
          rw [hm] at hm2; cases hm2
          rw [ht] at ht2; cases ht2
          rw [ho] at ho2; cases ho2
      · constructor
        · intro _
          exact Or.inr (Or.inr (Or.inr (Or.inr ⟨target, ctx, m, t, msg, hcall, hm, ht, ho⟩)))
        · intro _; exact ⟨[], msg, rfl⟩
      · intro html err h; cases h; rfl
      · intro t2 c2 hc2 hnone
        obtain ⟨_, rfl⟩ := YieldCall.unique hcall hc2
        rw [hm] at hnone; cases hnone
      · intro t2 c2 m2 hc2 hm2 ht2
        obtain ⟨rfl, rfl⟩ := YieldCall.unique hcall hc2
        rw [hm] at hm2; cases hm2
        rw [ht] at ht2; cases ht2
    · -- the target's render panics
      rw [he]
      refine ⟨?_, ?_, ?_, ?_, ?_⟩
      · intro p2
        constructor
        · intro h; cases h; exact ⟨target, ctx, m, t, hcall, hm, ht, ho⟩
        · rintro ⟨t2, c2, m2, t3, hc2, hm2, ht2, ho2⟩
          obtain ⟨rfl, rfl⟩ := YieldCall.unique hcall hc2
          rw [hm] at hm2; cases hm2
          rw [ht] at ht2; cases ht2
          rw [ho] at ho2; cases ho2
          rfl
      · constructor
        · rintro ⟨html, err, h⟩; cases h
        · rintro (h | h | h | ⟨t2, c2, hc2, hmiss⟩ | ⟨t2, c2, m2, t3, msg, hc2, hm2, ht2, ho2⟩)
          · exact absurd h hlen
          · exact absurd h hone
          · exact absurd h htwo
          · obtain ⟨_, rfl⟩ := YieldCall.unique hcall hc2
            exact absurd hm (hmiss m)
          · obtain ⟨rfl, rfl⟩ := YieldCall.unique hcall hc2
            rw [hm] at hm2; cases hm2
            rw [ht] at ht2; cases ht2
            rw [ho] at ho2; cases ho2
      · intro html err h; cases h
      · intro t2 c2 hc2 hnone
        obtain ⟨_, rfl⟩ := YieldCall.unique hcall hc2
        rw [hm] at hnone; cases hnone
      · intro t2 c2 m2 hc2 hm2 ht2
        obtain ⟨rfl, rfl⟩ := YieldCall.unique hcall hc2
        rw [hm] at hm2; cases hm2
        rw [ht] at ht2; cases ht2
  · -- an argument error
    rw [hy]
    refine ⟨?_, ?_, ?_, ?_, ?_⟩
    · intro p
      constructor
      · intro h; cases h
      · rintro ⟨t2, c2, _, _, hc2, _⟩
        exact absurd hc2 (hno t2 c2)
    · constructor
      · intro _
        rcases hshape with h | h | h
        · exact Or.inl h
        · exact Or.inr (Or.inl h)
        · exact Or.inr (Or.inr (Or.inl h))
      · intro _; exact ⟨[], err, rfl⟩
    · intro html e h; cases h; rfl
    · intro t2 c2 hc2 _; exact absurd hc2 (hno t2 c2)
    · intro t2 c2 _ hc2 _ _; exact absurd hc2 (hno t2 c2)

/-- C5 (counterexample). With a default body registered whose `Render`
panics, `yield(ctx)` panics. -/
theorem yield_panics_with_target :
    yield panicRender [.context sampleContext] = .panicked (.raised (str "boom")) := by
  decide

/-- C6. For every render context whose `ContentForItems` is a template map
`m`: `yield(ctx)` looks up the empty name and `yield(name, ctx)` looks up
`name`; when the target is in `m` and its render against `ctx` succeeds with
output `s`, the markup is exactly `s` with no error; when the target is not
in `m`, the markup is empty with no error. -/
theorem yield_renders_target (render : Renderer) (ctx : RenderContext)
    (m : GoMap revel.Template) (h : ctx.get ContentForItems = some (.templates m)) :
    (∀ t s, m.get [] = some t → render t ctx = { written := s, outcome := .ok } →
      yield render [.context ctx] = .ret s none) ∧
    (m.get [] = none → yield render [.context ctx] = .ret [] none) ∧
    (∀ name t s, m.get name = some t → render t ctx = { written := s, outcome := .ok } →
      yield render [.string name, .context ctx] = .ret s none) ∧
    (∀ name, m.get name = none → yield render [.string name, .context ctx] = .ret [] none) := by
  refine ⟨?_, ?_, ?_, ?_⟩
  · intro t s ht hs
    simp [yield, yieldLookup, h, ht, hs]
  · intro ht
    simp [yield, yieldLookup, h, ht]
  · intro name t s ht hs
    simp [yield, yieldLookup, h, ht, hs]
  · intro name ht
    simp [yield, yieldLookup, h, ht]

/-- C6 (witness). The named yield of the side bar in the sample context. -/
theorem yield_renders_target_witness :
    yield nameRender [.string (str "sidebar"), .context sampleContext]
      = .ret (str "x.html") none :=
  (yield_renders_target nameRender sampleContext
      (.mk [([], pageTemplate), (str "sidebar", sidebarTemplate)]) (by decide)).2.2.1
    (str "sidebar") sidebarTemplate (str "x.html") (by decide) (by decide)

/-- C7. For every name and render context, `could_yield` is true exactly
when the context has a `ContentForItems` entry that is a template map
containing the name; it is false when the entry is missing and when it is a
value of another shape. -/
theorem could_yield_iff (name : GoString) (ctx : RenderContext) :
    (could_yield name ctx = true ↔
      ∃ m t, ctx.get ContentForItems = some (.templates m) ∧ m.get name = some t) ∧
    (ctx.get ContentForItems = none → could_yield name ctx = false) ∧
    (∀ tag, ctx.get ContentForItems = some (.other tag) → could_yield name ctx = false) := by
  unfold could_yield
  cases hc : ctx.get ContentForItems with
  | none => simp
  | some items =>
    cases items with
    | other tag => simp
    | templates m =>
      cases ht : m.get name with
      | none => simp [ht]
      | some t => simp [ht]

/-! ### The events of `Apply` -/

theorem renderCalls_append (xs ys : List Event) :
    renderCalls (xs ++ ys) = renderCalls xs ++ renderCalls ys := by
  induction xs with
  | nil => rfl
  | cons e es ih => cases e <;> simp [renderCalls, ih]

theorem writeCalls_append (xs ys : List Event) :
    writeCalls (xs ++ ys) = writeCalls xs ++ writeCalls ys := by
  induction xs with
  | nil => rfl
  | cons e es ih => cases e <;> simp [writeCalls, ih]

/-- The method `renderError` renders nothing and writes nothing itself. -/
theorem renderError_calls (env : Env) (r : RenderLayoutTemplateResult) (err : GoString) :
    renderCalls (r.renderError env err).events = [] ∧
    writeCalls (r.renderError env err).events = [] := by
  unfold RenderLayoutTemplateResult.renderError
  cases parseTemplateError env.intSize err with
  | error p => simp [renderCalls, writeCalls]
  | ok v =>
    obtain ⟨templateName, line, description⟩ := v
    by_cases hn : templateName = []
    · cases hl : r.Layout <;> simp [hn, reportError, renderCalls, writeCalls]
    · cases hm : env.MainTemplateLoader templateName <;>
        simp [hn, hm, reportError, renderCalls, writeCalls]

/-- A render into `wr` calls `Render` once, on `r.RenderArgs`; only bytes
rendered straight into the response stream are written. -/
theorem renderInto_calls (env : Env) (r : RenderLayoutTemplateResult) (t : revel.Template)
    (wr : Writer) :
    renderCalls (renderInto env r t wr).2.events = [(t, r.RenderArgs)] ∧
    writeCalls (renderInto env r t wr).2.events
      = (if wr = .respOut then [(env.Render t r.RenderArgs).written] else []) ∧
    (renderInto env r t wr).1 = (env.Render t r.RenderArgs).written := by
  have he := renderError_calls env r
  unfold renderInto
  cases ho : (env.Render t r.RenderArgs).outcome <;>
    cases wr <;>
    simp [ho, writes, renderCalls, writeCalls, renderCalls_append, writeCalls_append, he]

/-- The body of `Apply` on a result whose maps are not nil, in direct mode. -/
theorem applyBody_direct (env : Env) (r : RenderLayoutTemplateResult) (req : revel.Request)
    (tmpl : List (GoString × revel.Template)) (args : List (GoString × Value))
    (hT : r.RenderTmpl = .mk tmpl) (hA : r.RenderArgs = .mk args)
    (hmode : (env.chunked && !env.DevMode) = true) :
    applyBody env r req =
      (r.prepared tmpl args,
       { events := Event.writeHeader StatusOK (str "text/html") ::
           (renderInto env (r.prepared tmpl args) r.wrapped (outWriter req)).2.events
         panic := (renderInto env (r.prepared tmpl args) r.wrapped (outWriter req)).2.panic }) := by
  unfold applyBody
  cases hl : r.Layout <;>
    simp [hT, hA, hl, GoMap.set, hmode, RenderLayoutTemplateResult.prepared,
      RenderLayoutTemplateResult.wrapped, RenderLayoutTemplateResult.render,
      RenderLayoutTemplateResult.renderWithLayout, outWriter, injected]

/-- The body of `Apply` on a result whose maps are not nil, in buffered mode. -/
theorem applyBody_buffered (env : Env) (r : RenderLayoutTemplateResult) (req : revel.Request)
    (tmpl : List (GoString × revel.Template)) (args : List (GoString × Value))
    (hT : r.RenderTmpl = .mk tmpl) (hA : r.RenderArgs = .mk args)
    (hmode : (env.chunked && !env.DevMode) = false) :
    applyBody env r req =
      (r.prepared tmpl args,
       match (renderInto env (r.prepared tmpl args) r.wrapped .buffer).2.panic with
       | some p =>
         { events := (renderInto env (r.prepared tmpl args) r.wrapped .buffer).2.events
           panic := some p }
       | none =>
         { events :=
             (renderInto env (r.prepared tmpl args) r.wrapped .buffer).2.events
               ++ (if !env.chunked then
                     [Event.setHeader (str "Content-Length")
                       (Itoa (renderInto env (r.prepared tmpl args) r.wrapped .buffer).1.length)]
                   else [])
               ++ [Event.writeHeader StatusOK (str "text/html")]
               ++ writes (outWriter req) (renderInto env (r.prepared tmpl args) r.wrapped .buffer).1
           panic := none }) := by
  unfold applyBody
  cases hl : r.Layout <;>
    cases hp : (renderInto env (r.prepared tmpl args) r.wrapped .buffer).2.panic <;>
    simp [hT, hA, hl, GoMap.set, hmode, RenderLayoutTemplateResult.prepared,
      RenderLayoutTemplateResult.wrapped, RenderLayoutTemplateResult.render,
      RenderLayoutTemplateResult.renderWithLayout, outWriter, injected] at hp ⊢ <;>
    simp [hp]

theorem renderCalls_writes (wr : Writer) (bytes : GoString) :
    renderCalls (writes wr bytes) = [] := by
  cases wr <;> rfl

/-- On a result whose maps are not nil, `Apply` calls `Render` exactly once:
on the wrapped template, with the injected context. -/
theorem apply_renderCalls (env : Env) (r : RenderLayoutTemplateResult) (req : revel.Request)
    (tmpl : List (GoString × revel.Template)) (args : List (GoString × Value))
    (hT : r.RenderTmpl = .mk tmpl) (hA : r.RenderArgs = .mk args) :
    renderCalls (r.Apply env req).2 = [(r.wrapped, injected r.Template tmpl args)] := by
  have hr := fun wr => (renderInto_calls env (r.prepared tmpl args) r.wrapped wr).1
  have hargs : (r.prepared tmpl args).RenderArgs = injected r.Template tmpl args := rfl
  unfold RenderLayoutTemplateResult.Apply
  cases hmode : (env.chunked && !env.DevMode)
  · rw [applyBody_buffered env r req tmpl args hT hA hmode]
    cases hp : (renderInto env (r.prepared tmpl args) r.wrapped .buffer).2.panic <;>
      cases hch : env.chunked <;>
      simp [renderCalls_append, renderCalls_writes, renderCalls, hr, hargs]
  · rw [applyBody_direct env r req tmpl args hT hA hmode]
    cases hp : (renderInto env (r.prepared tmpl args) r.wrapped (outWriter req)).2.panic <;>
      simp [renderCalls_append, renderCalls, hr, hargs]

/-! ### Claims about `Apply` -/

/-- C1 (the code at the failing input). Buffered mode, a GET request, no
layout, and a render that writes `<p>` and then returns an error: after the
error result (status 500) `Apply` goes on to set `Content-Length: 3`, to call
`WriteHeader(200, "text/html")` and to write the three rendered bytes to the
response. -/
theorem apply_buffered_error_goes_on :
    (plainResult.Apply (sampleEnv false false failRender) getRequest).2 =
      [ .render pageTemplate (injected pageTemplate [] []),
        .setStatus 500,
        .errorResult (injected pageTemplate [] [])
          { Title := str "Layout Execution Error"
            Path := str "App/Index.html"
            Description := str "boom"
            Line := 1
            SourceLines := [str "<h1>Index</h1>"] },
        .setHeader (str "Content-Length") (str "3"),
        .writeHeader 200 (str "text/html"),
        .write (str "<p>") ] := by
  decide

/-- C8. For every result whose two maps are not nil, `Apply` renders once,
and the context it renders with has under `ContentForItems` a template map
whose entry for the empty name is the main template and whose other entries
are those `RenderTmpl` held before; every other key of the context is as in
`RenderArgs` before. -/
theorem apply_injects_content (env : Env) (r : RenderLayoutTemplateResult)
    (req : revel.Request) (hT : r.RenderTmpl ≠ .nil) (hA : r.RenderArgs ≠ .nil) :
    ∃ ctx m, renderCalls (r.Apply env req).2 = [(r.wrapped, ctx)] ∧
      ctx.get ContentForItems = some (.templates m) ∧
      m.get [] = some r.Template ∧
      (∀ k, k ≠ [] → m.get k = r.RenderTmpl.get k) ∧
      (∀ k, k ≠ ContentForItems → ctx.get k = r.RenderArgs.get k) := by
  cases hT1 : r.RenderTmpl with
  | nil => exact absurd hT1 hT
  | mk tmpl =>
    cases hA1 : r.RenderArgs with
    | nil => exact absurd hA1 hA
    | mk args =>
      refine ⟨injected r.Template tmpl args, .mk (([], r.Template) :: tmpl),
        apply_renderCalls env r req tmpl args hT1 hA1, ?_, ?_, ?_, ?_⟩
      · exact GoMap.get_set_same _ _ _
      · exact GoMap.get_set_same _ _ _
      · intro k hk
        exact GoMap.get_set_ne _ _ _ _ hk
      · intro k hk
        exact GoMap.get_set_ne _ _ _ _ hk

/-- C8 (witness). The layout result of the samples, on a GET request. -/
theorem apply_injects_content_witness :
    ∃ ctx m,
      renderCalls (layoutResult.Apply (sampleEnv false false nameRender) getRequest).2
        = [(layoutResult.wrapped, ctx)] ∧
      ctx.get ContentForItems = some (.templates m) ∧
      m.get [] = some layoutResult.Template ∧
      (∀ k, k ≠ [] → m.get k = layoutResult.RenderTmpl.get k) ∧
      (∀ k, k ≠ ContentForItems → ctx.get k = layoutResult.RenderArgs.get k) :=
  apply_injects_content (sampleEnv false false nameRender) layoutResult getRequest
    (by decide) (by decide)

/-- C9. For every HEAD request, in either mode, on a result whose two maps
are not nil: `Apply` calls `Render` exactly once, on the wrapped template
with the injected context, and writes nothing to the response stream. -/
theorem apply_head_renders_once (env : Env) (r : RenderLayoutTemplateResult)
    (req : revel.Request) (tmpl : List (GoString × revel.Template))
    (args : List (GoString × Value))
    (hT : r.RenderTmpl = .mk tmpl) (hA : r.RenderArgs = .mk args)
    (hH : req.Method = str "HEAD") :
    renderCalls (r.Apply env req).2 = [(r.wrapped, injected r.Template tmpl args)] ∧
    writeCalls (r.Apply env req).2 = [] := by
  refine ⟨apply_renderCalls env r req tmpl args hT hA, ?_⟩
  have hw := fun wr => (renderInto_calls env (r.prepared tmpl args) r.wrapped wr).2.1
  have hout : outWriter req = .discard := by simp [outWriter, hH]
  unfold RenderLayoutTemplateResult.Apply
  cases hmode : (env.chunked && !env.DevMode)
  · rw [applyBody_buffered env r req tmpl args hT hA hmode]
    cases hp : (renderInto env (r.prepared tmpl args) r.wrapped .buffer).2.panic <;>
      cases hch : env.chunked <;>
      simp [writeCalls_append, writeCalls, hw, hout, writes]
  · rw [applyBody_direct env r req tmpl args hT hA hmode]
    cases hp : (renderInto env (r.prepared tmpl args) r.wrapped (outWriter req)).2.panic <;>
      simp [writeCalls_append, writeCalls, hw, hout]

/-- C9 (witness). A HEAD request in direct mode on the layout result. -/
theorem apply_head_renders_once_witness :
    renderCalls (layoutResult.Apply (sampleEnv true false nameRender) headRequest).2
      = [(layoutTemplate, injected pageTemplate [] [])] ∧
    writeCalls (layoutResult.Apply (sampleEnv true false nameRender) headRequest).2 = [] :=
  apply_head_renders_once (sampleEnv true false nameRender) layoutResult headRequest [] []
    rfl rfl rfl

/-- C10 (counterexample). Buffered mode with `results.chunked` true (in
development mode), a GET request and a render that succeeds: no
`Content-Length` header is set. -/
theorem apply_dev_chunked_sets_no_length :
    (plainResult.Apply (sampleEnv true true nameRender) getRequest).2 =
      [ .render pageTemplate (injected pageTemplate [] []),
        .writeHeader 200 (str "text/html"),
        .write (str "App/Index.html") ] := by
  decide

/-- C10 (as amended). In buffered mode, for every request that is not HEAD,
on a result whose maps are not nil and whose wrapped render succeeds with
output `s`: `Apply` renders, then sets `Content-Length` to the decimal byte
length of `s` if `results.chunked` is false and sets no header if it is true,
then calls `WriteHeader(200, "text/html")`, then writes exactly `s`. -/
theorem apply_buffered_success (env : Env) (r : RenderLayoutTemplateResult)
    (req : revel.Request) (tmpl : List (GoString × revel.Template))
    (args : List (GoString × Value)) (s : GoString)
    (hmode : ¬ (env.chunked = true ∧ env.DevMode = false))
    (hT : r.RenderTmpl = .mk tmpl) (hA : r.RenderArgs = .mk args)
    (hM : req.Method ≠ str "HEAD")
    (hs : env.Render r.wrapped (injected r.Template tmpl args)
            = { written := s, outcome := .ok }) :
    (r.Apply env req).2 =
      [Event.render r.wrapped (injected r.Template tmpl args)]
        ++ (if env.chunked = false then
              [Event.setHeader (str "Content-Length") (Itoa s.length)]
            else [])
        ++ [Event.writeHeader 200 (str "text/html"), Event.write s] := by
  have hm : (env.chunked && !env.DevMode) = false := by
    cases hc : env.chunked <;> cases hd : env.DevMode <;> simp_all
  have hout : outWriter req = .respOut := by simp [outWriter, hM]
  have hargs : (r.prepared tmpl args).RenderArgs = injected r.Template tmpl args := rfl
  unfold RenderLayoutTemplateResult.Apply
  rw [applyBody_buffered env r req tmpl args hT hA hm]
  cases hch : env.chunked <;>
    simp [renderInto, hargs, hs, hout, writes, StatusOK]

/-- C10 (witness). The default mode, a GET request, the layout result. -/
theorem apply_buffered_success_witness :
    (layoutResult.Apply (sampleEnv false false nameRender) getRequest).2 =
      [Event.render layoutResult.wrapped (injected layoutResult.Template [] [])]
        ++ (if (sampleEnv false false nameRender).chunked = false then
              [Event.setHeader (str "Content-Length") (Itoa (str "application.html").length)]
            else [])
        ++ [Event.writeHeader 200 (str "text/html"), Event.write (str "application.html")] :=
  apply_buffered_success (sampleEnv false false nameRender) layoutResult getRequest [] []
    (str "application.html") (by decide) rfl rfl (by decide) (by decide)

/-! ### Claims about the controller and about `parseTemplateError` -/

/-- C2 (the code at the failing input). `ContentFor("sidebar", "x.html")`
succeeds and stores the handle of `x.html` in the controller; `Render` then
returns a result whose `RenderTmpl` is a new empty map; after `Apply` the
context has only the default body under `ContentForItems`, and
`yield("sidebar", ctx)` gives empty markup, not the render of `x.html`. -/
theorem contentFor_lost_in_render :
    Controller.ContentFor (sampleEnv false false nameRender) sampleController
        (str "sidebar") (str "x.html") = .ok (sidebarController, none) ∧
    sidebarController.RenderTmpl.get (str "sidebar") = some sidebarTemplate ∧
    (Controller.Render (sampleEnv false false nameRender) sampleGlobals sidebarController
        (some 12) []).map (fun out => out.result) = .ok (.layout layoutResult) ∧
    layoutResult.RenderTmpl = .mk [] ∧
    (layoutResult.Apply (sampleEnv false false nameRender) getRequest).1.RenderArgs
      = layoutContext ∧
    layoutContext.get ContentForItems = some (.templates (.mk [([], pageTemplate)])) ∧
    yield nameRender [.string (str "sidebar"), .context layoutContext] = .ret [] none ∧
    nameRender sidebarTemplate layoutContext = { written := str "x.html", outcome := .ok } := by
  decide

/-- C3 (the code at the failing input). With no default layout for the
format, after `Layout("admin")` (so `LayoutPath` is `admin` and `noLayout` is
false) `Render` takes the plain path `RenderTemplate("App/Index.html")`. -/
theorem render_ignores_explicit_layout :
    (sampleController.Layout (str "admin")).LayoutPath = str "admin" ∧
    (sampleController.Layout (str "admin")).noLayout = false ∧
    noDefaultGlobals.DefaultLayout.get (str "html") = none ∧
    (Controller.Render (sampleEnv false false nameRender) noDefaultGlobals
        (sampleController.Layout (str "admin")) (some 12) []).map (fun out => out.result)
      = .ok (.RenderTemplate (str "App/Index.html")) := by
  decide

/-- C4 (counterexample). On the message of the comment the description does
not begin with a space. -/
theorem parse_register_no_leading_space :
    parseTemplateError .w64 registerMessage
      ≠ .ok (str "Application/Register.html", 36, str " no such template \"footer.html\"") := by
  decide

/-- C4 (as amended). On the message of the comment, for either width of
`int`, `parseTemplateError` returns the template name
`Application/Register.html`, the line 36 and the description
`no such template "footer.html"`: the text after the `:36:` fragment without
the byte that follows it, the space. -/
theorem parse_register_message (w : IntSize) :
    parseTemplateError w registerMessage
      = .ok (str "Application/Register.html", 36, str "no such template \"footer.html\"") := by
  cases w <;> decide

/-! ### Claims about `ContentFor`, `Layout` and `Render` -/

/-- What `ContentFor` does on a controller whose `RenderTmpl` map is made:
the bare name is tried first, then the name under the controller; a handle
found is bound to the yield name, and a lookup error leaves the controller
as it was. -/
theorem contentFor_made_map (env : Env) (lc : Controller) (yieldName templateName : GoString)
    (tmpl : List (GoString × revel.Template)) (hT : lc.RenderTmpl = .mk tmpl) :
    (∀ t, env.MainTemplateLoader templateName = .ok t →
      Controller.ContentFor env lc yieldName templateName
        = .ok ({ lc with RenderTmpl := .mk ((yieldName, t) :: tmpl) }, none)) ∧
    (∀ e t, env.MainTemplateLoader templateName = .error e →
      env.MainTemplateLoader (lc.Name ++ str "/" ++ templateName) = .ok t →
      Controller.ContentFor env lc yieldName templateName
        = .ok ({ lc with RenderTmpl := .mk ((yieldName, t) :: tmpl) }, none)) ∧
    (∀ e e2, env.MainTemplateLoader templateName = .error e →
      env.MainTemplateLoader (lc.Name ++ str "/" ++ templateName) = .error e2 →
      Controller.ContentFor env lc yieldName templateName = .ok (lc, some e2)) := by
  refine ⟨?_, ?_, ?_⟩
  · intro t h1
    simp [Controller.ContentFor, h1, hT, GoMap.set]
  · intro e t h1 h2
    simp only [List.append_assoc] at h2
    simp [Controller.ContentFor, h1, h2, hT, GoMap.set]
  · intro e e2 h1 h2
    simp only [List.append_assoc] at h2
    simp [Controller.ContentFor, h1, h2]

/-- C11 (the code at the failing input). On a controller whose `RenderTmpl`
is nil, the zero value that no code of the package replaces, the index
resolves `x.html` and `ContentFor("sidebar", "x.html")` panics at the map
write instead of storing the handle and returning nil. -/
theorem contentFor_nil_map_panics :
    zeroController.RenderTmpl = .nil ∧
    sampleLoader (str "x.html") = .ok sidebarTemplate ∧
    Controller.ContentFor (sampleEnv false false nameRender) zeroController
        (str "sidebar") (str "x.html") = .error .nilMapAssign := by
  decide

/-- The method `Layout` touches only `LayoutPath` and `noLayout`. -/
theorem layout_frame (lc : Controller) (s : GoString) :
    (lc.Layout s).Name = lc.Name ∧ (lc.Layout s).MethodName = lc.MethodName ∧
    (lc.Layout s).RenderArgNames = lc.RenderArgNames ∧ (lc.Layout s).Format = lc.Format ∧
    (lc.Layout s).RenderArgs = lc.RenderArgs ∧ (lc.Layout s).RenderTmpl = lc.RenderTmpl := by
  unfold Controller.Layout
  by_cases h : s = [] <;> simp [h]

/-- A sequence of `Layout` calls touches only `LayoutPath` and `noLayout`. -/
theorem layouts_frame (calls : List GoString) (lc : Controller) :
    (calls.foldl Controller.Layout lc).Name = lc.Name ∧
    (calls.foldl Controller.Layout lc).MethodName = lc.MethodName ∧
    (calls.foldl Controller.Layout lc).RenderArgNames = lc.RenderArgNames ∧
    (calls.foldl Controller.Layout lc).Format = lc.Format ∧
    (calls.foldl Controller.Layout lc).RenderArgs = lc.RenderArgs ∧
    (calls.foldl Controller.Layout lc).RenderTmpl = lc.RenderTmpl := by
  induction calls generalizing lc with
  | nil => simp
  | cons s rest ih =>
    obtain ⟨h1, h2, h3, h4, h5, h6⟩ := layout_frame lc s
    obtain ⟨i1, i2, i3, i4, i5, i6⟩ := ih (lc.Layout s)
    simp only [List.foldl_cons]
    exact ⟨i1.trans h1, i2.trans h2, i3.trans h3, i4.trans h4, i5.trans h5, i6.trans h6⟩

/-- The method `Layout` never clears `noLayout`. -/
theorem layout_keeps_noLayout (lc : Controller) (s : GoString) (h : lc.noLayout = true) :
    (lc.Layout s).noLayout = true := by
  unfold Controller.Layout
  by_cases hs : s = [] <;> simp [hs, h]

/-- A sequence of `Layout` calls never clears `noLayout`. -/
theorem layouts_keep_noLayout (calls : List GoString) (lc : Controller)
    (h : lc.noLayout = true) : (calls.foldl Controller.Layout lc).noLayout = true := by
  induction calls generalizing lc with
  | nil => simpa using h
  | cons s rest ih =>
    simp only [List.foldl_cons]
    exact ih (lc.Layout s) (layout_keeps_noLayout lc s h)

/-- A sequence of `Layout` calls with an empty name among them sets `noLayout`. -/
theorem layouts_set_noLayout (calls : List GoString) (lc : Controller)
    (h : [] ∈ calls) : (calls.foldl Controller.Layout lc).noLayout = true := by
  induction calls generalizing lc with
  | nil => simp at h
  | cons s rest ih =>
    simp only [List.foldl_cons]
    rcases List.mem_cons.mp h with h0 | h1
    · apply layouts_keep_noLayout
      simp [Controller.Layout, ← h0]
    · exact ih (lc.Layout s) h1

/-- The loop over the extra arguments does not panic on a map that is made. -/
theorem assignArgs_made (names : List GoString) (extra : List Value)
    (l : List (GoString × Value)) :
    ∃ l1, assignArgs (.mk l) names extra = .ok (.mk l1) := by
  induction names generalizing extra l with
  | nil => exact ⟨l, by simp [assignArgs]⟩
  | cons n ns ih =>
    cases extra with
    | nil => exact ⟨l, by simp [assignArgs]⟩
    | cons v vs =>
      obtain ⟨l1, h1⟩ := ih vs ((n, v) :: l)
      exact ⟨l1, by simp [assignArgs, GoMap.set, h1]⟩

/-- With `noLayout` set, the end of `Render` takes the plain path. -/
theorem dispatch_noLayout (env : Env) (g : Globals) (lc : Controller) (log : List LogLine)
    (h : lc.noLayout = true) :
    Controller.dispatch env g lc log
      = { lc := lc, globals := g, result := .RenderTemplate lc.templatePath, log := log } := by
  simp [Controller.dispatch, h]

/-- The end of `Render` keeps `noLayout` and `RenderArgs`. -/
theorem dispatch_frame (env : Env) (g : Globals) (lc : Controller) (log : List LogLine) :
    (Controller.dispatch env g lc log).lc.noLayout = lc.noLayout ∧
    (Controller.dispatch env g lc log).lc.RenderArgs = lc.RenderArgs := by
  unfold Controller.dispatch
  by_cases h1 : (lc.noLayout || (g.DefaultLayout.get lc.Format).getD [] = []) = true
  · simp [h1]
  · by_cases h2 : lc.LayoutPath = [] <;> simp [h1, h2]

/-- The method `Render` keeps `noLayout`. -/
theorem render_keeps_noLayout (env : Env) (g : Globals) (lc : Controller)
    (caller : Option Nat) (extra : List Value) (out : RenderOut)
    (h : Controller.Render env g lc caller extra = .ok out) :
    out.lc.noLayout = lc.noLayout := by
  unfold Controller.Render at h
  cases hn : lc.RenderArgNames.lookup (caller.getD 0) with
  | none =>
    simp [hn] at h
    rw [← h]
    exact (dispatch_frame env g lc _).1
  | some names =>
    by_cases hlen : names.length = extra.length
    · cases ha : assignArgs lc.RenderArgs names extra with
      | error p => simp [hn, hlen, ha] at h
      | ok ra =>
        simp [hn, hlen, ha] at h
        rw [← h]
        exact (dispatch_frame env g { lc with RenderArgs := ra } _).1
    · simp [hn, hlen] at h
      rw [← h]
      exact (dispatch_frame env g lc _).1

/-- The method `Render` when no names are registered for the line. -/
theorem render_no_names (env : Env) (g : Globals) (lc : Controller)
    (caller : Option Nat) (extra : List Value)
    (hl : lc.RenderArgNames.lookup (caller.getD 0) = none) :
    Controller.Render env g lc caller extra =
      .ok (Controller.dispatch env g lc
        ((if caller = none then [LogLine.callerFailed] else [])
          ++ [.noNames (caller.getD 0) lc.MethodName])) := by
  simp only [Controller.Render, hl]

/-- The method `Render` when the count of names differs from the count of arguments. -/
theorem render_mismatch (env : Env) (g : Globals) (lc : Controller)
    (caller : Option Nat) (extra : List Value) (names : List GoString)
    (hl : lc.RenderArgNames.lookup (caller.getD 0) = some names)
    (hlen : names.length ≠ extra.length) :
    Controller.Render env g lc caller extra =
      .ok (Controller.dispatch env g lc
        ((if caller = none then [LogLine.callerFailed] else [])
          ++ [.countMismatch names.length extra.length])) := by
  simp only [Controller.Render, hl, hlen, if_false]

/-- The method `Render` when the counts agree and the assignments succeed. -/
theorem render_match (env : Env) (g : Globals) (lc : Controller)
    (caller : Option Nat) (extra : List Value) (names : List GoString) (ra : RenderContext)
    (hl : lc.RenderArgNames.lookup (caller.getD 0) = some names)
    (hlen : names.length = extra.length)
    (ha : assignArgs lc.RenderArgs names extra = .ok ra) :
    Controller.Render env g lc caller extra =
      .ok (Controller.dispatch env g { lc with RenderArgs := ra }
        (if caller = none then [LogLine.callerFailed] else [])) := by
  simp only [Controller.Render, hl, hlen, ha, if_true]

/-- With `noLayout` set and `RenderArgs` made, `Render` returns the plain path. -/
theorem render_noLayout (env : Env) (g : Globals) (lc : Controller)
    (caller : Option Nat) (extra : List Value)
    (hn : lc.noLayout = true) (hA : lc.RenderArgs ≠ .nil) :
    ∃ out, Controller.Render env g lc caller extra = .ok out ∧
      out.result = .RenderTemplate lc.templatePath := by
  cases hl : lc.RenderArgNames.lookup (caller.getD 0) with
  | none =>
    refine ⟨_, render_no_names env g lc caller extra hl, ?_⟩
    rw [dispatch_noLayout env g lc _ hn]
  | some names =>
    by_cases hlen : names.length = extra.length
    · cases hra : lc.RenderArgs with
      | nil => exact absurd hra hA
      | mk l =>
        obtain ⟨l1, h1⟩ := assignArgs_made names extra l
        rw [← hra] at h1
        refine ⟨_, render_match env g lc caller extra names _ hl hlen h1, ?_⟩
        rw [dispatch_noLayout env g _ _ (by simpa using hn)]
        rfl
    · refine ⟨_, render_mismatch env g lc caller extra names hl hlen, ?_⟩
      rw [dispatch_noLayout env g lc _ hn]

/-- C16. `Layout("")` sets `noLayout` and leaves `LayoutPath` as it was;
`Layout(s)` with `s` not empty sets `LayoutPath` to `s` and leaves `noLayout`
as it was; neither `Layout` nor `Render` nor `ContentFor` clears a set
`noLayout`; hence after any sequence of `Layout` calls with an empty name
among them, `Render` (on a controller whose `RenderArgs` is made) returns the
plain path `RenderTemplate(Name + "/" + action + "." + format)`, whatever
`DefaultLayout` holds. -/
theorem noLayout_never_cleared (env : Env) (g : Globals) (lc : Controller)
    (caller : Option Nat) (extra : List Value) (calls : List GoString)
    (hmem : [] ∈ calls) (hA : lc.RenderArgs ≠ .nil) :
    (∀ c : Controller, (c.Layout []).noLayout = true ∧ (c.Layout []).LayoutPath = c.LayoutPath) ∧
    (∀ (c : Controller) (s : GoString), s ≠ [] →
      (c.Layout s).LayoutPath = s ∧ (c.Layout s).noLayout = c.noLayout) ∧
    (∀ (c : Controller) (s : GoString), c.noLayout = true → (c.Layout s).noLayout = true) ∧
    (∀ (c : Controller) (e : Env) (g1 : Globals) (cl : Option Nat) (ex : List Value)
        (out : RenderOut),
      Controller.Render e g1 c cl ex = .ok out → out.lc.noLayout = c.noLayout) ∧
    (∀ (c c1 : Controller) (e : Env) (y t : GoString) (err : Option GoString),
      Controller.ContentFor e c y t = .ok (c1, err) → c1.noLayout = c.noLayout) ∧
    (∃ out, Controller.Render env g (calls.foldl Controller.Layout lc) caller extra = .ok out ∧
      out.result =
        .RenderTemplate (lc.Name ++ str "/" ++ lc.MethodName ++ str "." ++ lc.Format)) := by
  refine ⟨?_, ?_, ?_, ?_, ?_, ?_⟩
  · intro c
    simp [Controller.Layout]
  · intro c s hs
    simp [Controller.Layout, hs]
  · intro c s h
    exact layout_keeps_noLayout c s h
  · intro c e g1 cl ex out h
    exact render_keeps_noLayout e g1 c cl ex out h
  · intro c c1 e y t err h
    unfold Controller.ContentFor at h
    cases h1 : e.MainTemplateLoader t with
    | ok tm =>
      cases hs : c.RenderTmpl.set y tm with
      | error p => simp [h1, hs] at h
      | ok m => simp [h1, hs] at h; rw [← h.1]
    | error e1 =>
      cases h2 : e.MainTemplateLoader (c.Name ++ str "/" ++ t) with
      | ok tm =>
        cases hs : c.RenderTmpl.set y tm with
        | error p => simp only [h1, h2, hs] at h; cases h
        | ok m => simp only [h1, h2, hs] at h; cases h; rfl
      | error e2 => simp only [h1, h2] at h; cases h; rfl
  · obtain ⟨f1, f2, _, f4, f5, _⟩ := layouts_frame calls lc
    have hn := layouts_set_noLayout calls lc hmem
    have hA1 : (calls.foldl Controller.Layout lc).RenderArgs ≠ .nil := by rw [f5]; exact hA
    obtain ⟨out, ho, hr⟩ := render_noLayout env g _ caller extra hn hA1
    refine ⟨out, ho, ?_⟩
    rw [hr]
    simp only [Controller.templatePath, f1, f2, f4]

/-- C16 (witness). `Layout("")` followed by `Layout("admin")`, with a default
layout configured for the format. -/
theorem noLayout_never_cleared_witness :
    ∃ out, Controller.Render (sampleEnv false false nameRender) sampleGlobals
        ([[], str "admin"].foldl Controller.Layout sampleController) (some 12) [] = .ok out ∧
      out.result =
        .RenderTemplate (sampleController.Name ++ str "/" ++ sampleController.MethodName
          ++ str "." ++ sampleController.Format) :=
  (noLayout_never_cleared (sampleEnv false false nameRender) sampleGlobals sampleController
    (some 12) [] [[], str "admin"] (by decide) (by decide)).2.2.2.2.2

/-- The loop over the extra arguments on a map that is made: every key that
is not assigned keeps its binding, and when equal names carry equal values
every name ends up bound to its argument. -/
theorem assignArgs_spec (names : List GoString) (extra : List Value)
    (l : List (GoString × Value))
    (hcons : ∀ p ∈ names.zip extra, ∀ q ∈ names.zip extra, p.1 = q.1 → p.2 = q.2) :
    ∃ l1, assignArgs (.mk l) names extra = .ok (.mk l1) ∧
      (∀ k, (∀ p ∈ names.zip extra, p.1 ≠ k) → (GoMap.mk l1).get k = (GoMap.mk l).get k) ∧
      (∀ p ∈ names.zip extra, (GoMap.mk l1).get p.1 = some p.2) := by
  induction names generalizing extra l with
  | nil => exact ⟨l, by simp [assignArgs], by simp, by simp⟩
  | cons n ns ih =>
    cases extra with
    | nil => exact ⟨l, by simp [assignArgs], by simp, by simp⟩
    | cons v vs =>
      have hz : (n :: ns).zip (v :: vs) = (n, v) :: ns.zip vs := rfl
      rw [hz] at hcons
      have htail : ∀ p ∈ ns.zip vs, ∀ q ∈ ns.zip vs, p.1 = q.1 → p.2 = q.2 :=
        fun p hp q hq => hcons p (List.mem_cons_of_mem _ hp) q (List.mem_cons_of_mem _ hq)
      obtain ⟨l1, h1, hframe, hset⟩ := ih vs ((n, v) :: l) htail
      refine ⟨l1, by simp [assignArgs, GoMap.set, h1], ?_, ?_⟩
      · intro k hk
        rw [hz] at hk
        have hkn : k ≠ n := fun h => hk (n, v) (List.mem_cons_self _ _) h.symm
        rw [hframe k (fun p hp => hk p (List.mem_cons_of_mem _ hp))]
        exact GoMap.get_set_ne l n k v hkn
      · intro p hp
        rw [hz] at hp
        rcases List.mem_cons.mp hp with rfl | hp1
        · by_cases hex : ∃ q ∈ ns.zip vs, q.1 = n
          · obtain ⟨q, hq, hqn⟩ := hex
            have hv : v = q.2 :=
              hcons (n, v) (List.mem_cons_self _ _) q (List.mem_cons_of_mem _ hq) hqn.symm
            have := hset q hq
            rw [hqn] at this
            simpa [hv] using this
          · have hno : ∀ q ∈ ns.zip vs, q.1 ≠ n := fun q hq hqn => hex ⟨q, hq, hqn⟩
            rw [hframe n hno]
            exact GoMap.get_set_same l n v
        · exact hset p hp1

/-- The end of `Render` returns a result that does not depend on the log. -/
theorem dispatch_log (env : Env) (g : Globals) (lc : Controller) (log1 log2 : List LogLine) :
    (Controller.dispatch env g lc log1).result = (Controller.dispatch env g lc log2).result ∧
    (Controller.dispatch env g lc log1).lc = (Controller.dispatch env g lc log2).lc ∧
    (Controller.dispatch env g lc log1).globals = (Controller.dispatch env g lc log2).globals := by
  unfold Controller.dispatch
  by_cases h1 : (lc.noLayout || (g.DefaultLayout.get lc.Format).getD [] = []) = true
  · simp [h1]
  · simp [h1]

/-- Without extra arguments `Render` goes straight to the choice of path. -/
theorem render_no_extra (env : Env) (g : Globals) (lc : Controller) (caller : Option Nat) :
    ∃ log, Controller.Render env g lc caller [] = .ok (Controller.dispatch env g lc log) := by
  cases hl : lc.RenderArgNames.lookup (caller.getD 0) with
  | none => exact ⟨_, render_no_names env g lc caller [] hl⟩
  | some names =>
    by_cases hlen : names.length = ([] : List Value).length
    · have hn : names = [] := List.length_eq_zero.mp (by simpa using hlen)
      have ha : assignArgs lc.RenderArgs names [] = .ok lc.RenderArgs := by
        rw [hn]; cases lc.RenderArgs <;> rfl
      exact ⟨_, render_match env g lc caller [] names _ hl hlen ha⟩
    · exact ⟨_, render_mismatch env g lc caller [] names hl hlen⟩

/-- C12. `Render` with extra arguments, on a controller whose `RenderArgs`
is made. When names are registered for the call-site line, as many as there
are extra arguments (equal names carrying equal values), afterwards every
name is bound to its argument in `RenderArgs` and every other key is as
before. When the counts differ or no names are registered for the line,
`RenderArgs` is left as it was, and `Render` returns the result, controller
and package state it returns without extra arguments. -/
theorem render_extra_args (env : Env) (g : Globals) (lc : Controller)
    (caller : Option Nat) (extra : List Value) :
    (∀ names args0,
      lc.RenderArgNames.lookup (caller.getD 0) = some names →
      names.length = extra.length →
      lc.RenderArgs = .mk args0 →
      (∀ p ∈ names.zip extra, ∀ q ∈ names.zip extra, p.1 = q.1 → p.2 = q.2) →
      ∃ out, Controller.Render env g lc caller extra = .ok out ∧
        (∀ p ∈ names.zip extra, out.lc.RenderArgs.get p.1 = some p.2) ∧
        (∀ k, k ∉ names → out.lc.RenderArgs.get k = lc.RenderArgs.get k)) ∧
    ((lc.RenderArgNames.lookup (caller.getD 0) = none ∨
        ∃ names, lc.RenderArgNames.lookup (caller.getD 0) = some names ∧
          names.length ≠ extra.length) →
      ∃ out out0, Controller.Render env g lc caller extra = .ok out ∧
        Controller.Render env g lc caller [] = .ok out0 ∧
        out.lc.RenderArgs = lc.RenderArgs ∧
        out.result = out0.result ∧ out.lc = out0.lc ∧ out.globals = out0.globals) := by
  constructor
  · intro names args0 hl hlen hA hcons
    obtain ⟨l1, h1, hframe, hset⟩ := assignArgs_spec names extra args0 hcons
    rw [← hA] at h1
    refine ⟨_, render_match env g lc caller extra names _ hl hlen h1, ?_, ?_⟩
    · intro p hp
      rw [(dispatch_frame env g _ _).2]
      exact hset p hp
    · intro k hk
      rw [(dispatch_frame env g _ _).2, hA]
      apply hframe k
      intro p hp hpk
      obtain ⟨a, b⟩ := p
      exact hk (hpk ▸ (List.of_mem_zip hp).1)
  · intro h
    obtain ⟨log0, h0⟩ := render_no_extra env g lc caller
    rcases h with hl | ⟨names, hl, hlen⟩
    · refine ⟨_, _, render_no_names env g lc caller extra hl, h0,
        (dispatch_frame env g lc _).2, ?_, ?_, ?_⟩
      · exact (dispatch_log env g lc _ _).1
      · exact (dispatch_log env g lc _ _).2.1
      · exact (dispatch_log env g lc _ _).2.2
    · refine ⟨_, _, render_mismatch env g lc caller extra names hl hlen, h0,
        (dispatch_frame env g lc _).2, ?_, ?_, ?_⟩
      · exact (dispatch_log env g lc _ _).1
      · exact (dispatch_log env g lc _ _).2.1
      · exact (dispatch_log env g lc _ _).2.2

/-- C12 (witness). Two names registered for line 12 and two extra arguments. -/
theorem render_extra_args_witness :
    ∃ out, Controller.Render (sampleEnv false false nameRender) sampleGlobals argsController
        (some 12) [.other 1, .other 2] = .ok out ∧
      (∀ p ∈ [str "title", str "user"].zip [Value.other 1, Value.other 2],
        out.lc.RenderArgs.get p.1 = some p.2) ∧
      (∀ k, k ∉ [str "title", str "user"] →
        out.lc.RenderArgs.get k = argsController.RenderArgs.get k) :=
  (render_extra_args (sampleEnv false false nameRender) sampleGlobals argsController
    (some 12) [.other 1, .other 2]).1 [str "title", str "user"] [] (by decide) (by decide)
    (by decide) (by decide)

/-! ### Claims about `RenderTemplateWithLayout` -/

/-- The method `RenderTemplateWithLayout` in terms of the layout index and
the error of the load. -/
theorem renderTemplateWithLayout_eq (env : Env) (g : Globals) (lc : Controller)
    (templatePath : GoString) :
    (lc.RenderTemplateWithLayout env g templatePath).2 =
      match loadError env g with
      | some err => .RenderError err
      | none => resolveWithLayout env (layoutIndex env g) lc templatePath := by
  unfold Controller.RenderTemplateWithLayout loadError layoutIndex
  cases hl : g.layoutTemplates with
  | some layouts => rfl
  | none =>
    cases hr : env.Refresh <;> simp [loadLayouts, hr]

/-- C13. `RenderTemplateWithLayout` returns an error result when the layout
load fails, when the main template is not found, and when neither the bare
`LayoutPath` nor `LayoutPath + "." + format` resolves. Otherwise it returns a
`RenderLayoutTemplateResult` whose layout is the handle of the bare name when
that resolves, and the handle of the suffixed name only when the bare name
does not. So where `application` does not resolve and `application.html`
does, with format `html`, the layouts `application` and `application.html`
give the same result. -/
theorem layout_resolution (env : Env) (g : Globals) (lc : Controller) (path : GoString) :
    (∀ err, loadError env g = some err →
      (lc.RenderTemplateWithLayout env g path).2 = .RenderError err) ∧
    (loadError env g = none → ∀ err, env.MainTemplateLoader path = .error err →
      (lc.RenderTemplateWithLayout env g path).2 = .RenderError err) ∧
    (loadError env g = none → ∀ t e1 e2, env.MainTemplateLoader path = .ok t →
      layoutIndex env g lc.LayoutPath = .error e1 →
      layoutIndex env g (lc.LayoutPath ++ str "." ++ lc.Format) = .error e2 →
      (lc.RenderTemplateWithLayout env g path).2 = .RenderError e2) ∧
    (loadError env g = none → ∀ t h, env.MainTemplateLoader path = .ok t →
      layoutIndex env g lc.LayoutPath = .ok h →
      (lc.RenderTemplateWithLayout env g path).2 =
        .layout { Template := t, Layout := some h,
                  RenderArgs := lc.RenderArgs, RenderTmpl := .mk [] }) ∧
    (loadError env g = none → ∀ t e1 h, env.MainTemplateLoader path = .ok t →
      layoutIndex env g lc.LayoutPath = .error e1 →
      layoutIndex env g (lc.LayoutPath ++ str "." ++ lc.Format) = .ok h →
      (lc.RenderTemplateWithLayout env g path).2 =
        .layout { Template := t, Layout := some h,
                  RenderArgs := lc.RenderArgs, RenderTmpl := .mk [] }) ∧
    (lc.Format = str "html" → ∀ e1 h,
      layoutIndex env g (str "application") = .error e1 →
      layoutIndex env g (str "application.html") = .ok h →
      (Controller.RenderTemplateWithLayout env g
          { lc with LayoutPath := str "application" } path).2 =
        (Controller.RenderTemplateWithLayout env g
          { lc with LayoutPath := str "application.html" } path).2) := by
  refine ⟨?_, ?_, ?_, ?_, ?_, ?_⟩
  · intro err he
    rw [renderTemplateWithLayout_eq, he]
  · intro he err hm
    rw [renderTemplateWithLayout_eq, he]
    simp [resolveWithLayout, hm]
  · intro he t e1 e2 hm h1 h2
    rw [renderTemplateWithLayout_eq, he]
    simp only [resolveWithLayout, hm, h1, h2]
  · intro he t h hm h1
    rw [renderTemplateWithLayout_eq, he]
    simp only [resolveWithLayout, hm, h1]
  · intro he t e1 h hm h1 h2
    rw [renderTemplateWithLayout_eq, he]
    simp only [resolveWithLayout, hm, h1, h2]
  · intro hf e1 h h1 h2
    have hs : str "application" ++ str "." ++ str "html" = str "application.html" := by decide
    rw [renderTemplateWithLayout_eq, renderTemplateWithLayout_eq]
    cases he : loadError env g with
    | some err => rfl
    | none =>
      cases hm : env.MainTemplateLoader path with
      | error err => simp only [resolveWithLayout, hm]
      | ok t => simp only [resolveWithLayout, hm, h1, h2, hf, hs]

/-- C13 (witness). The sample layouts hold `application.html` only; with
format `html` both spellings of the layout give the sample layout result. -/
theorem layout_resolution_witness :
    (Controller.RenderTemplateWithLayout (sampleEnv false false nameRender) sampleGlobals
        { sampleController with LayoutPath := str "application" }
        (str "App/Index.html")).2 =
      (Controller.RenderTemplateWithLayout (sampleEnv false false nameRender) sampleGlobals
        { sampleController with LayoutPath := str "application.html" }
        (str "App/Index.html")).2 :=
  (layout_resolution (sampleEnv false false nameRender) sampleGlobals sampleController
    (str "App/Index.html")).2.2.2.2.2 (by decide) (str "layout not found") layoutTemplate
    (by decide) (by decide)

/-! ### Claims about `renderError` and `parseTemplateError` -/

/-- What `renderError` reports on a result with a layout when
`parseTemplateError` returns: the status 500 and an error result whose path
and source lines are the layout's when no template name was parsed, and
otherwise the parsed name with the content of that template if the main
index resolves it and no source lines if it does not. -/
theorem renderError_with_layout (env : Env) (r : RenderLayoutTemplateResult)
    (err : GoString) (layout : revel.Template) (name : GoString) (line : Nat)
    (description : GoString) (hL : r.Layout = some layout)
    (hp : parseTemplateError env.intSize err = .ok (name, line, description)) :
    ∃ path src, r.renderError env err =
        { events :=
            [.setStatus 500,
             .errorResult r.RenderArgs
               { Title := str "Layout Execution Error"
                 Path := path
                 Description := description
                 Line := line
                 SourceLines := src }]
          panic := none } ∧
      (name = [] → path = layout.name ∧ src = layout.content) ∧
      (name ≠ [] → path = name ∧
        (∀ t, env.MainTemplateLoader name = .ok t → src = t.content) ∧
        (∀ e, env.MainTemplateLoader name = .error e → src = [])) := by
  unfold RenderLayoutTemplateResult.renderError
  by_cases hn : name = []
  · exact ⟨layout.name, layout.content, by simp [hp, hn, hL, reportError],
      fun _ => ⟨rfl, rfl⟩, fun h => absurd hn h⟩
  · cases hm : env.MainTemplateLoader name with
    | ok t =>
      refine ⟨name, t.content, by simp [hp, hn, hm, reportError], fun h => absurd h hn,
        fun _ => ⟨rfl, ?_, ?_⟩⟩
      · intro t2 h2; cases h2; rfl
      · intro e h2; cases h2
    | error e =>
      refine ⟨name, [], by simp [hp, hn, hm, reportError], fun h => absurd h hn,
        fun _ => ⟨rfl, ?_, ?_⟩⟩
      · intro t2 h2; cases h2
      · intro e2 _; rfl

/-- C14 (the code at the failing input). On a result without a layout, for
a render error whose message `boom` names no template, `renderError` panics
at `r.Layout.Name()`; `Apply` recovers and applies a plain-text error result
instead of the structured error. -/
theorem renderError_without_layout_panics :
    plainResult.Layout = none ∧
    parseTemplateError .w64 (str "boom") = .ok ([], 0, str "boom") ∧
    plainResult.renderError (sampleEnv false false boomRender) (str "boom")
      = { events := [], panic := some .nilDeref } ∧
    (plainResult.Apply (sampleEnv false false boomRender) getRequest).2 =
      [ .render pageTemplate (injected pageTemplate [] []),
        .plaintextError (str "App/Index.html") .nilDeref ] := by
  decide

theorem digitRun_le (s : GoString) : digitRun s ≤ s.length := by
  induction s with
  | nil => simp [digitRun]
  | cons c cs ih =>
    unfold digitRun
    by_cases h : isDigit c = true <;> simp [h]
    omega

/-- The digits counted by `digitRun` are digits. -/
theorem digitRun_digits (s : GoString) (i : Nat) (h : i < digitRun s) :
    ∃ c, s[i]? = some c ∧ isDigit c = true := by
  induction s generalizing i with
  | nil => simp [digitRun] at h
  | cons c cs ih =>
    unfold digitRun at h
    by_cases hd : isDigit c = true
    · simp only [hd, if_true] at h
      cases i with
      | zero => exact ⟨c, by simp, hd⟩
      | succ j =>
        obtain ⟨d, h1, h2⟩ := ih j (by omega)
        exact ⟨d, by simpa using h1, h2⟩
    · simp [hd] at h

/-- The byte after the digits counted by `digitRun` is not a digit. -/
theorem digitRun_stop (s : GoString) (c : UInt8) (h : s[digitRun s]? = some c) :
    isDigit c = false := by
  induction s with
  | nil => simp at h
  | cons d ds ih =>
    unfold digitRun at h
    by_cases hd : isDigit d = true
    · simp only [hd, if_true] at h
      exact ih (by simpa using h)
    · simp only [hd] at h
      simp at h
      rw [← h]
      simpa using hd

/-- A run of `n` digits followed by a byte that is not a digit has `digitRun` equal to `n`. -/
theorem digitRun_eq (s : GoString) (n : Nat)
    (hd : ∀ i, i < n → ∃ c, s[i]? = some c ∧ isDigit c = true)
    (hs : ∃ c, s[n]? = some c ∧ isDigit c = false) : digitRun s = n := by
  have h1 : ¬ digitRun s < n := by
    intro hlt
    obtain ⟨c, hc, hdc⟩ := hd (digitRun s) hlt
    have := digitRun_stop s c hc
    rw [this] at hdc
    cases hdc
  have h2 : ¬ n < digitRun s := by
    intro hlt
    obtain ⟨c, hc, hdc⟩ := digitRun_digits s n hlt
    obtain ⟨c2, hc2, hdc2⟩ := hs
    rw [hc] at hc2
    cases hc2
    rw [hdc] at hdc2
    cases hdc2
  omega

theorem colon_not_digit : isDigit colon = false := by decide

theorem matchHere_cons (c : UInt8) (rest : GoString) :
    matchHere (c :: rest) =
      if c = colon ∧ 0 < digitRun rest ∧ rest.get? (digitRun rest) = some colon then
        some (digitRun rest + 2)
      else none := rfl

/-- The anchored match of the model is the anchored match of the pattern. -/
theorem matchHere_iff (s : GoString) (len : Nat) :
    matchHere s = some len ↔ IsMatch s 0 len := by
  cases s with
  | nil =>
    simp only [matchHere, IsMatch]
    constructor
    · intro h; cases h
    · rintro ⟨h1, h2, _⟩
      simp at h2
      omega
  | cons c rest =>
    rw [matchHere_cons]
    constructor
    · intro h
      by_cases hc : c = colon ∧ 0 < digitRun rest ∧ rest.get? (digitRun rest) = some colon
      · rw [if_pos hc] at h
        cases h
        obtain ⟨hc1, hpos, hend⟩ := hc
        have hend1 : rest[digitRun rest]? = some colon := by simpa using hend
        have hlt : digitRun rest < rest.length := by
          by_contra hge
          rw [List.getElem?_eq_none (by omega)] at hend1
          cases hend1
        refine ⟨by omega, by simp; omega, by simp [hc1], by simpa using hend1, ?_⟩
        intro i hi1 hi2
        obtain ⟨j, rfl⟩ : ∃ j, i = j + 1 := ⟨i - 1, by omega⟩
        obtain ⟨d, hd1, hd2⟩ := digitRun_digits rest j (by omega)
        exact ⟨d, by simpa using hd1, hd2⟩
      · rw [if_neg hc] at h
        cases h
    · rintro ⟨h1, h2, h3, h4, h5⟩
      have hc1 : c = colon := by simpa using h3
      obtain ⟨n, rfl⟩ : ∃ n, len = n + 2 := ⟨len - 2, by omega⟩
      have hend : rest[n]? = some colon := by simpa using h4
      have hrun : digitRun rest = n := by
        apply digitRun_eq
        · intro i hi
          obtain ⟨d, hd1, hd2⟩ := h5 (i + 1) (by omega) (by omega)
          exact ⟨d, by simpa using hd1, hd2⟩
        · exact ⟨colon, hend, colon_not_digit⟩
      have hc : c = colon ∧ 0 < digitRun rest ∧ rest.get? (digitRun rest) = some colon := by
        rw [hrun]
        exact ⟨hc1, by omega, by simpa using hend⟩
      rw [if_pos hc, hrun]

/-- A match in `c :: cs` that does not start at the head is a match in `cs`. -/
theorem isMatch_cons (c : UInt8) (cs : GoString) (a b : Nat) :
    IsMatch (c :: cs) (a + 1) (b + 1) ↔ IsMatch cs a b := by
  unfold IsMatch
  constructor
  · rintro ⟨h1, h2, h3, h4, h5⟩
    obtain ⟨k, rfl⟩ : ∃ k, b = k + 1 := ⟨b - 1, by omega⟩
    refine ⟨by omega, by simpa using h2, by simpa using h3, by simpa using h4, ?_⟩
    intro i hi1 hi2
    obtain ⟨d, hd1, hd2⟩ := h5 (i + 1) (by omega) (by omega)
    exact ⟨d, by simpa using hd1, hd2⟩
  · rintro ⟨h1, h2, h3, h4, h5⟩
    obtain ⟨k, rfl⟩ : ∃ k, b = k + 1 := ⟨b - 1, by omega⟩
    refine ⟨by omega, by simpa using h2, by simpa using h3, by simpa using h4, ?_⟩
    intro i hi1 hi2
    obtain ⟨j, rfl⟩ : ∃ j, i = j + 1 := ⟨i - 1, by omega⟩
    obtain ⟨d, hd1, hd2⟩ := h5 j (by omega) (by omega)
    exact ⟨d, by simpa using hd1, hd2⟩

/-- The offset of `findFrom` is added to both ends of the range. -/
theorem findFrom_shift (s : GoString) (off : Nat) :
    findFrom s off = (findFrom s 0).map (fun p => (p.1 + off, p.2 + off)) := by
  induction s generalizing off with
  | nil => rfl
  | cons c cs ih =>
    unfold findFrom
    cases hm : matchHere (c :: cs) with
    | some len => simp [Nat.add_comm]
    | none =>
      simp only []
      rw [ih (off + 1), ih (0 + 1)]
      cases findFrom cs 0 with
      | none => rfl
      | some p => simp [Nat.add_assoc, Nat.add_comm 1 off]

/-- The search of the model finds the first match of the pattern. -/
theorem findStringIndex_iff (s : GoString) (a b : Nat) :
    FindStringIndex s = some (a, b) ↔ FirstMatch s a b := by
  unfold FindStringIndex
  induction s generalizing a b with
  | nil =>
    constructor
    · intro h; cases h
    · rintro ⟨⟨h1, h2, _⟩, _⟩
      simp at h2
      omega
  | cons c cs ih =>
    unfold findFrom
    cases hm : matchHere (c :: cs) with
    | some len =>
      have hlen := (matchHere_iff (c :: cs) len).mp hm
      simp only [Nat.zero_add]
      constructor
      · intro h
        cases h
        exact ⟨hlen, fun a1 _ _ => Nat.zero_le a1⟩
      · rintro ⟨hab, hfirst⟩
        have ha : a = 0 := Nat.le_zero.mp (hfirst 0 len hlen)
        subst ha
        have := (matchHere_iff (c :: cs) b).mpr hab
        rw [hm] at this
        cases this
        rfl
    | none =>
      have hnone : ∀ b1, ¬ IsMatch (c :: cs) 0 b1 := by
        intro b1 hb1
        have := (matchHere_iff (c :: cs) b1).mpr hb1
        rw [hm] at this
        cases this
      simp only []
      rw [findFrom_shift cs (0 + 1)]
      constructor
      · intro h
        cases hf : findFrom cs 0 with
        | none => rw [hf] at h; cases h
        | some p =>
          rw [hf] at h
          obtain ⟨a0, b0⟩ := p
          simp at h
          obtain ⟨rfl, rfl⟩ := h
          obtain ⟨hmatch, hfirst⟩ := (ih a0 b0).mp hf
          refine ⟨(isMatch_cons c cs a0 b0).mpr hmatch, ?_⟩
          intro a1 b1 h1
          cases a1 with
          | zero => exact absurd h1 (hnone b1)
          | succ a2 =>
            obtain ⟨b2, rfl⟩ : ∃ b2, b1 = b2 + 1 := ⟨b1 - 1, by have := h1.1; omega⟩
            have := hfirst a2 b2 ((isMatch_cons c cs a2 b2).mp h1)
            omega
      · rintro ⟨hab, hfirst⟩
        cases a with
        | zero => exact absurd hab (hnone b)
        | succ a0 =>
          obtain ⟨b0, rfl⟩ : ∃ b0, b = b0 + 1 := ⟨b - 1, by have := hab.1; omega⟩
          have hf : findFrom cs 0 = some (a0, b0) := by
            apply (ih a0 b0).mpr
            refine ⟨(isMatch_cons c cs a0 b0).mp hab, ?_⟩
            intro a1 b1 h1
            have := hfirst (a1 + 1) (b1 + 1) ((isMatch_cons c cs a1 b1).mpr h1)
            omega
          rw [hf]
          rfl

/-- The search of the model finds nothing exactly when the pattern has no match. -/
theorem findStringIndex_none (s : GoString) :
    FindStringIndex s = none ↔ ∀ a b, ¬ IsMatch s a b := by
  constructor
  · unfold FindStringIndex
    induction s with
    | nil =>
      rintro _ a b ⟨h1, h2, _⟩
      simp at h2
      omega
    | cons c cs ih =>
      intro h a b hab
      unfold findFrom at h
      cases hm : matchHere (c :: cs) with
      | some len => rw [hm] at h; cases h
      | none =>
        rw [hm] at h
        simp only [] at h
        rw [findFrom_shift cs (0 + 1)] at h
        have hcs : findFrom cs 0 = none := by
          cases hf : findFrom cs 0 with
          | none => rfl
          | some p => rw [hf] at h; cases h
        cases a with
        | zero =>
          have := (matchHere_iff (c :: cs) b).mpr hab
          rw [hm] at this
          cases this
        | succ a0 =>
          obtain ⟨b0, rfl⟩ : ∃ b0, b = b0 + 1 := ⟨b - 1, by have := hab.1; omega⟩
          exact ih hcs a0 b0 ((isMatch_cons c cs a0 b0).mp hab)
  · intro h
    cases hf : FindStringIndex s with
    | none => rfl
    | some p =>
      obtain ⟨a, b⟩ := p
      exact absurd ((findStringIndex_iff s a b).mp hf).1 (h a b)

/-- The cut at the first colon, as `parseTemplateError` writes it with `strings.Index`. -/
theorem dropThroughColon_eq (s : GoString) :
    dropThroughColon s = if colon ∈ s then some (s.drop (s.indexOf colon + 1)) else none := by
  induction s with
  | nil => simp [dropThroughColon]
  | cons c cs ih =>
    unfold dropThroughColon
    by_cases hc : c = colon
    · simp [hc, List.indexOf_cons]
    · have hne : colon ≠ c := fun h => hc h.symm
      have hb : (c == colon) = false := by simpa using hc
      rw [if_neg hc, ih]
      by_cases hm : colon ∈ cs
      · simp [hm, hne, List.indexOf_cons, hb]
      · simp [hm, hne]

theorem afterFirstColon_eq (s : GoString) :
    (if colon ∈ s then s.drop (s.indexOf colon + 1) else s) = afterFirstColon s := by
  unfold afterFirstColon
  rw [dropThroughColon_eq]
  by_cases hm : colon ∈ s <;> simp [hm]

theorem atoi_fst (w : IntSize) (ds : GoString) :
    (Atoi w ds).1 = min (digitsValue ds) w.maxInt := by
  unfold Atoi
  by_cases h : digitsValue ds ≤ w.maxInt
  · simp [h]
  · simp [h]; omega

/-- The function `parseTemplateError` on a message with a first match. -/
theorem parseTemplateError_found (w : IntSize) (msg : GoString) (a b : Nat)
    (h : FindStringIndex msg = some (a, b)) :
    parseTemplateError w msg =
      if b + 1 ≤ msg.length then
        .ok (TrimSpace (afterFirstColon (msg.take a)),
             min (digitsValue (matchDigits msg a b)) w.maxInt,
             msg.drop (b + 1))
      else .error .sliceBounds := by
  unfold parseTemplateError
  simp only [h, afterFirstColon_eq, atoi_fst, matchDigits]

/-- C15 (counterexample). A line number of twenty digits: the line returned
is the largest 64-bit `int`, not the decimal value of the digits. -/
theorem parse_big_line_saturates :
    parseTemplateError .w64 bigLineMessage = .ok (str "a", 9223372036854775807, str "x") ∧
    matchDigits bigLineMessage 1 23 = str "99999999999999999999" ∧
    digitsValue (matchDigits bigLineMessage 1 23) = 99999999999999999999 := by
  decide

/-- C15 (as amended). The search `FindStringIndex` finds exactly the first
range `[a, b)` of the message that is a colon, digits and a colon. For every
message and either width of `int`: `parseTemplateError` panics exactly when
that first match ends at the end of the message, and the panic is the slice
panic; with no match it returns the empty name, line 0 and the whole message;
with a first match `[a, b)` that ends before the end of the message it
returns the white-space-trimmed text of `message[:a]` after its first colon
(all of `message[:a]` if it has none) as the name, the decimal value of the
digits as the line when that fits in an `int` and the largest `int`
otherwise, and `message[b+1:]` as the description. -/
theorem parseTemplateError_cases (w : IntSize) (msg : GoString) :
    (∀ a b, FindStringIndex msg = some (a, b) ↔ FirstMatch msg a b) ∧
    (∀ p, parseTemplateError w msg = .error p ↔
      p = .sliceBounds ∧ ∃ a, FirstMatch msg a msg.length) ∧
    ((∀ a b, ¬ IsMatch msg a b) → parseTemplateError w msg = .ok ([], 0, msg)) ∧
    (∀ a b, FirstMatch msg a b → b ≠ msg.length →
      parseTemplateError w msg =
        .ok (TrimSpace (afterFirstColon (msg.take a)),
             min (digitsValue (matchDigits msg a b)) w.maxInt,
             msg.drop (b + 1))) := by
  refine ⟨findStringIndex_iff msg, ?_, ?_, ?_⟩
  · intro p
    constructor
    · intro h
      cases hf : FindStringIndex msg with
      | none =>
        have : parseTemplateError w msg = .ok ([], 0, msg) := by
          simp only [parseTemplateError, hf]
        rw [this] at h
        cases h
      | some ab =>
        obtain ⟨a, b⟩ := ab
        have hfm := (findStringIndex_iff msg a b).mp hf
        have hb : b ≤ msg.length := hfm.1.2.1
        rw [parseTemplateError_found w msg a b hf] at h
        by_cases hlt : b + 1 ≤ msg.length
        · rw [if_pos hlt] at h
          cases h
        · rw [if_neg hlt] at h
          cases h
          have hbl : b = msg.length := by omega
          exact ⟨rfl, a, hbl ▸ hfm⟩
    · rintro ⟨rfl, a, hfm⟩
      have hf := (findStringIndex_iff msg a msg.length).mpr hfm
      rw [parseTemplateError_found w msg a msg.length hf]
      simp
  · intro hno
    have hf := (findStringIndex_none msg).mpr hno
    simp only [parseTemplateError, hf]
  · intro a b hfm hb
    have hf := (findStringIndex_iff msg a b).mpr hfm
    have hle : b ≤ msg.length := hfm.1.2.1
    rw [parseTemplateError_found w msg a b hf, if_pos (by omega)]

end Yield
